import Mathlib

/-!
The record dispatcher of prog_machxo (`src/prog_machxo/main.c`): a shallow embedding
of `do_work` and its helpers, and the properties of the specification settled on it.

* A transport primitive is a constructor of `Call`; the run records the calls it
  issues, in order, in a trace (`List Call`).
* The device is an oracle `Env`: given the calls issued so far and the call being
  issued, it gives the `int` the primitive returns.  The code tests every result
  against `1`.
* `get_next_jedec_section` is a stream of pull results, `none` for a pull that does
  not return `1`.  A run over a finite prefix of the stream that uses the prefix up
  before it ends has flow `Flow.stuck`.
* `MACHXO2_PAGE_SIZE` and the three `ERASE_*` constants come from `machxo.h`, which
  is not part of the sources; they are parameters (`P`, `EraseBits`).
* `main` is modelled on the arguments after the program name, as lists of
  characters; `strtol`, the two `open_` functions and the default device names are
  the fields of `Host`.
* A record's buffer is the list of its `data_len` bytes, followed by a NUL
  terminator.  Lengths and addresses are natural numbers (the `int` and `uint32_t`
  of the code within their range).
-/

namespace ProgMachXO

/-! ## Constants (main.c 15-20) -/

def DO_ERASE : Nat := 1
def DO_FLASH : Nat := 2
def DO_VERIFY : Nat := 4
def DO_REFRESH : Nat := 8
def DO_FEATURE : Nat := 16
def DO_USERFLASH : Nat := 32

/-- The region bits of `machxo.h` used by the erase mask. -/
structure EraseBits where
  ERASE_FEATURE_ROW : Nat
  ERASE_CONFIGURATION : Nat
  ERASE_USER_FLASH : Nat
  deriving DecidableEq, Repr

/-! ## Data model -/

/-- The section tags `do_work` switches on; `UNKNOWN` is any tag without a `case`. -/
inductive Section
  | NOTE
  | FUSE_MAP
  | ARCH
  | USERCODE
  | END
  | NUM_PINS
  | NUM_FUSES
  | DEFAULT_FUSE_VAL
  | CHECK_SUM
  | SECURITY_FUSE
  | UNKNOWN (tag : Nat)
  deriving DecidableEq, Repr

/-- What one successful `get_next_jedec_section` stores through its four pointers. -/
structure Record where
  sect : Section
  address : Nat
  data : List Nat
  deriving DecidableEq, Repr

/-- The `data_len` of a record: the number of bytes of its buffer. -/
def Record.data_len (r : Record) : Nat := r.data.length

/-- The transport primitives of `machxo.h`, with the arguments the code passes.
A pointer argument is the bytes it points at: `len` bytes for a `(pointer, len)`
pair, 8 bytes for a feature row and 2 bytes for the feature bits. -/
inductive Call
  | check_device_id_quick
  | enable_offline_configuration
  | wait_not_busy
  | erase_flash (erase_type : Nat)
  | refresh
  | set_configuration_flash_address (page_address : Nat) (tag_data_seen : Bool)
  | program_configuration_flash (data : List Nat) (len : Nat)
  | verify_configuration_flash (data : List Nat) (len : Nat)
  | program_feature_row (data : List Nat)
  | program_feature_bits (data : List Nat)
  | verify_feature_row (data : List Nat)
  | verify_feature_bits (data : List Nat)
  | program_user_code (address : Nat)
  | verify_user_code (address : Nat)
  | program_done
  deriving DecidableEq, Repr

/-- The calls issued so far, oldest first. -/
abbrev Trace := List Call

/-- The device: the value a primitive returns, given the calls issued before it. -/
abbrev Env := Trace → Call → Int

/-- How a piece of `do_work` ends: it falls through to what follows (`next`), it
returns from `do_work` (`ret`), it calls `exit(code)`, or it is not over within the
pull results or loop iterations given (`stuck`). -/
inductive Flow
  | next
  | ret
  | exit (code : Nat)
  | stuck
  deriving DecidableEq, Repr

/-! ## Helpers (main.c 22-47) -/

/-- The function `all_zero` (main.c 22-29). -/
def all_zero : List Nat → Bool
  | [] => true
  | b :: bs => if b ≠ 0 then false else all_zero bs

/-- The function `abort_and_clean_up` (main.c 31-39): the three results are dropped. -/
def abort_and_clean_up (env : Env) (erase_type : Nat) (t : Trace) : Flow × Trace :=
  let t1 := t ++ [Call.erase_flash erase_type]
  let _r1 := env t (Call.erase_flash erase_type)
  let t2 := t1 ++ [Call.wait_not_busy]
  let _r2 := env t1 Call.wait_not_busy
  let t3 := t2 ++ [Call.refresh]
  let _r3 := env t2 Call.refresh
  (Flow.exit 1, t3)

/-- The function `just_abort` (main.c 41-47): the result of `refresh` is dropped. -/
def just_abort (env : Env) (t : Trace) : Flow × Trace :=
  let t1 := t ++ [Call.refresh]
  let _r1 := env t Call.refresh
  (Flow.exit 1, t1)

/-- The bytes of the C string at a buffer: what precedes its first NUL. -/
def cstr (data : List Nat) : List Nat := data.takeWhile (fun b => b ≠ 0)

/-- Whether `needle` occurs in `hay` at some offset. -/
def occurs (needle : List Nat) : List Nat → Bool
  | [] => needle.isPrefixOf []
  | c :: cs => needle.isPrefixOf (c :: cs) || occurs needle cs

/-- The test `strstr((char*)data, needle) != 0` of the C library. -/
def strstr (data needle : List Nat) : Bool := occurs needle (cstr data)

/-- The bytes of the literal `"TAG DATA"` (main.c 100). -/
def TAG_DATA : List Nat := [84, 65, 71, 32, 68, 65, 84, 65]

/-! ## The erase mask (main.c 73-80) -/

/-- The value of `erase_type` after main.c 74-80.  In C `==` binds tighter than
`&`, so each guard is `op & (DO_x == 0)`. -/
def compute_erase_type (k : EraseBits) (op : Nat) : Nat :=
  let e0 := k.ERASE_FEATURE_ROW ||| k.ERASE_CONFIGURATION ||| k.ERASE_USER_FLASH
  let e1 := if op &&& (if DO_FEATURE = 0 then 1 else 0) ≠ 0
            then e0 &&& (0xFFFFFFFF ^^^ k.ERASE_FEATURE_ROW) else e0
  let e2 := if op &&& (if DO_USERFLASH = 0 then 1 else 0) ≠ 0
            then e1 &&& (0xFFFFFFFF ^^^ k.ERASE_USER_FLASH) else e1
  e2

/-! ## The FuseMap case (main.c 103-151) -/

/-- The page loop of main.c 115-119, from index `i`.  The first argument bounds the
number of iterations left; the flow is `stuck` when it is used up. -/
def program_pages (P : Nat) (env : Env) (erase_type : Nat) (data : List Nat) :
    Nat → Nat → Trace → Flow × Trace
  | 0, _, t => (Flow.stuck, t)
  | fuel + 1, i, t =>
    if i < data.length then
      let c := Call.program_configuration_flash ((data.drop i).take P) P
      if env t c ≠ 1 then
        abort_and_clean_up env erase_type (t ++ [c])
      else if env (t ++ [c]) Call.wait_not_busy ≠ 1 then
        abort_and_clean_up env erase_type (t ++ [c] ++ [Call.wait_not_busy])
      else
        program_pages P env erase_type data fuel (i + P) (t ++ [c] ++ [Call.wait_not_busy])
    else (Flow.next, t)

/-- The program phase of a FuseMap record (main.c 104-121). -/
def fuse_map_program (P op : Nat) (env : Env) (erase_type : Nat) (r : Record)
    (tag_data_seen : Bool) (t : Trace) : Flow × Trace :=
  if op &&& DO_FLASH ≠ 0 then
    if (r.address / P) * P ≠ r.address then
      abort_and_clean_up env erase_type t
    else if (r.data_len / P) * P ≠ r.data_len then
      abort_and_clean_up env erase_type t
    else if ¬ all_zero r.data then
      let page_address := r.address / P
      let c := Call.set_configuration_flash_address page_address tag_data_seen
      if env t c ≠ 1 then
        abort_and_clean_up env erase_type (t ++ [c])
      else
        program_pages P env erase_type r.data (r.data_len + 1) 0 (t ++ [c])
    else (Flow.next, t)
  else (Flow.next, t)

/-- The chunk loop of main.c 134-145, from index `i`.  The first argument bounds the
number of iterations left; the flow is `stuck` when it is used up. -/
def verify_blocks (P : Nat) (env : Env) (data : List Nat) :
    Nat → Nat → Trace → Flow × Trace
  | 0, _, t => (Flow.stuck, t)
  | fuel + 1, i, t =>
    if i < data.length then
      let block_len := if data.length - i > P * 8 then P * 8 else data.length - i
      let c := Call.verify_configuration_flash ((data.drop i).take block_len) block_len
      if env t c ≠ 1 then
        just_abort env (t ++ [c])
      else
        verify_blocks P env data fuel (i + P * 8) (t ++ [c])
    else (Flow.next, t)

/-- The verify phase of a FuseMap record (main.c 122-150). -/
def fuse_map_verify (P op : Nat) (env : Env) (r : Record)
    (tag_data_seen : Bool) (t : Trace) : Flow × Trace :=
  if op &&& DO_VERIFY ≠ 0 then
    if (r.address / P) * P ≠ r.address then
      just_abort env t
    else if (r.data_len / P) * P ≠ r.data_len then
      just_abort env t
    else
      let page_address := r.address / P
      let c := Call.set_configuration_flash_address page_address tag_data_seen
      if env t c ≠ 1 then
        just_abort env (t ++ [c])
      else
        verify_blocks P env r.data (r.data_len + 1) 0 (t ++ [c])
  else (Flow.next, t)

/-- Sequencing of two pieces: the second runs when the first falls through. -/
def and_then (a : Flow × Trace) (b : Trace → Flow × Trace) : Flow × Trace :=
  match a.1 with
  | Flow.next => b a.2
  | _ => a

/-! ## The Arch, UserCode and End cases (main.c 152-189) -/

/-- The program phase of an Arch record (main.c 154-162). -/
def arch_program (op : Nat) (env : Env) (erase_type : Nat) (r : Record) (t : Trace) :
    Flow × Trace :=
  if op &&& DO_FLASH ≠ 0 then
    if r.data_len ≠ 10 then
      abort_and_clean_up env erase_type t
    else
      let c1 := Call.program_feature_row (r.data.take 8)
      if env t c1 ≠ 1 then
        abort_and_clean_up env erase_type (t ++ [c1])
      else if env (t ++ [c1]) Call.wait_not_busy ≠ 1 then
        abort_and_clean_up env erase_type (t ++ [c1] ++ [Call.wait_not_busy])
      else
        let t2 := t ++ [c1] ++ [Call.wait_not_busy]
        let c2 := Call.program_feature_bits ((r.data.drop 8).take 2)
        if env t2 c2 ≠ 1 then
          abort_and_clean_up env erase_type (t2 ++ [c2])
        else if env (t2 ++ [c2]) Call.wait_not_busy ≠ 1 then
          abort_and_clean_up env erase_type (t2 ++ [c2] ++ [Call.wait_not_busy])
        else (Flow.next, t2 ++ [c2] ++ [Call.wait_not_busy])
  else (Flow.next, t)

/-- The verify phase of an Arch record (main.c 163-171). -/
def arch_verify (op : Nat) (env : Env) (r : Record) (t : Trace) : Flow × Trace :=
  if op &&& DO_VERIFY ≠ 0 then
    if r.data_len ≠ 10 then
      just_abort env t
    else
      let c1 := Call.verify_feature_row (r.data.take 8)
      if env t c1 ≠ 1 then
        just_abort env (t ++ [c1])
      else
        let c2 := Call.verify_feature_bits ((r.data.drop 8).take 2)
        if env (t ++ [c1]) c2 ≠ 1 then
          just_abort env (t ++ [c1] ++ [c2])
        else (Flow.next, t ++ [c1] ++ [c2])
  else (Flow.next, t)

/-- The program phase of a UserCode record (main.c 175-177). -/
def usercode_program (op : Nat) (env : Env) (erase_type : Nat) (r : Record) (t : Trace) :
    Flow × Trace :=
  if op &&& DO_FLASH ≠ 0 then
    let c := Call.program_user_code r.address
    if env t c ≠ 1 then
      abort_and_clean_up env erase_type (t ++ [c])
    else if env (t ++ [c]) Call.wait_not_busy ≠ 1 then
      abort_and_clean_up env erase_type (t ++ [c] ++ [Call.wait_not_busy])
    else (Flow.next, t ++ [c] ++ [Call.wait_not_busy])
  else (Flow.next, t)

/-- The verify phase of a UserCode record (main.c 178-180). -/
def usercode_verify (op : Nat) (env : Env) (r : Record) (t : Trace) : Flow × Trace :=
  if op &&& DO_VERIFY ≠ 0 then
    let c := Call.verify_user_code r.address
    if env t c ≠ 1 then
      just_abort env (t ++ [c])
    else (Flow.next, t ++ [c])
  else (Flow.next, t)

/-- The End case (main.c 182-189): the nested `if`s, then `return`. -/
def section_end (op : Nat) (env : Env) (t : Trace) : Flow × Trace :=
  if env t Call.program_done = 1 then
    let t1 := t ++ [Call.program_done]
    if env t1 Call.wait_not_busy = 1 then
      let t2 := t1 ++ [Call.wait_not_busy]
      if op &&& DO_REFRESH ≠ 0 then
        if env t2 Call.refresh = 1 then
          let t3 := t2 ++ [Call.refresh]
          let _r := env t3 Call.wait_not_busy
          (Flow.ret, t3 ++ [Call.wait_not_busy])
        else (Flow.ret, t2 ++ [Call.refresh])
      else (Flow.ret, t2)
    else (Flow.ret, t1 ++ [Call.wait_not_busy])
  else (Flow.ret, t ++ [Call.program_done])

/-! ## The dispatcher (main.c 49-203) -/

/-- The value of `tag_data_seen` after the `switch` on a record (main.c 99-102). -/
def latch (tag_data_seen : Bool) (r : Record) : Bool :=
  match r.sect with
  | Section.NOTE => if strstr r.data TAG_DATA then true else tag_data_seen
  | _ => tag_data_seen

/-- The transport side of the `switch` on one record (main.c 97-201). -/
def dispatch (P op : Nat) (env : Env) (erase_type : Nat) (r : Record)
    (tag_data_seen : Bool) (t : Trace) : Flow × Trace :=
  match r.sect with
  | Section.NOTE => (Flow.next, t)
  | Section.FUSE_MAP =>
    and_then (fuse_map_program P op env erase_type r tag_data_seen t)
      (fuse_map_verify P op env r tag_data_seen)
  | Section.ARCH =>
    if op &&& DO_FEATURE ≠ 0 then
      and_then (arch_program op env erase_type r t) (arch_verify op env r)
    else (Flow.next, t)
  | Section.USERCODE =>
    and_then (usercode_program op env erase_type r t) (usercode_verify op env r)
  | Section.END => section_end op env t
  | Section.NUM_PINS => (Flow.next, t)
  | Section.NUM_FUSES => (Flow.next, t)
  | Section.DEFAULT_FUSE_VAL => (Flow.next, t)
  | Section.CHECK_SUM => (Flow.next, t)
  | Section.SECURITY_FUSE => (Flow.next, t)
  | Section.UNKNOWN _ => abort_and_clean_up env erase_type t

/-- The state of a run: how it ended, the calls it issued and the number of
`get_next_jedec_section` calls it made. -/
structure Run where
  flow : Flow
  trace : Trace
  pulls : Nat
  deriving DecidableEq, Repr

/-- The `while (1)` loop of main.c 90-202 over the pull results still to come. -/
def do_work_loop (P op : Nat) (env : Env) (erase_type : Nat) :
    List (Option Record) → Bool → Trace → Nat → Run
  | [], _, t, n => ⟨Flow.stuck, t, n⟩
  | none :: _, _, t, n =>
    let a := abort_and_clean_up env erase_type t
    ⟨a.1, a.2, n + 1⟩
  | some r :: rest, tag_data_seen, t, n =>
    let d := dispatch P op env erase_type r tag_data_seen t
    match d.1 with
    | Flow.next => do_work_loop P op env erase_type rest (latch tag_data_seen r) d.2 (n + 1)
    | f => ⟨f, d.2, n + 1⟩

/-- The function `do_work` (main.c 49-203). -/
def do_work (P : Nat) (k : EraseBits) (op : Nat) (env : Env) :
    List (Option Record) → Run
  | [] => ⟨Flow.stuck, [], 0⟩
  | none :: _ => ⟨Flow.ret, [], 1⟩
  | some _ :: rest =>
    let t1 : Trace := [Call.check_device_id_quick]
    if env [] Call.check_device_id_quick ≠ 1 then ⟨Flow.exit 1, t1, 1⟩
    else
      let t2 := t1 ++ [Call.enable_offline_configuration]
      if env t1 Call.enable_offline_configuration ≠ 1 then ⟨Flow.exit 1, t2, 1⟩
      else
        let t3 := t2 ++ [Call.wait_not_busy]
        if env t2 Call.wait_not_busy ≠ 1 then ⟨Flow.exit 1, t3, 1⟩
        else
          let erase_type := compute_erase_type k op
          if op &&& DO_ERASE ≠ 0 then
            let t4 := t3 ++ [Call.erase_flash erase_type]
            if env t3 (Call.erase_flash erase_type) ≠ 1 then ⟨Flow.exit 1, t4, 1⟩
            else
              let t5 := t4 ++ [Call.wait_not_busy]
              if env t4 Call.wait_not_busy ≠ 1 then ⟨Flow.exit 1, t5, 1⟩
              else do_work_loop P op env erase_type rest false t5 1
          else do_work_loop P op env erase_type rest false t3 1

/-- The exit status of the process once the file and the device are open
(main.c 284-286): `exit(code)` inside `do_work`, or `return 0` after it returns;
`none` when the run is not over within the given pull results. -/
def exit_status (run : Run) : Option Nat :=
  match run.flow with
  | Flow.ret => some 0
  | Flow.exit code => some code
  | Flow.next => none
  | Flow.stuck => none

/-- The part of `main` after `open_device` (main.c 284-286). -/
def main_run (P : Nat) (k : EraseBits) (op : Nat) (env : Env)
    (stream : List (Option Record)) : Option Nat :=
  exit_status (do_work P k op env stream)

/-! ## Vocabulary of the statements -/

/-- A set-target-page call. -/
def Call.is_set_page : Call → Bool
  | Call.set_configuration_flash_address _ _ => true
  | _ => false

/-- A write-page call. -/
def Call.is_write_page : Call → Bool
  | Call.program_configuration_flash _ _ => true
  | _ => false

/-- A read-verify-range call. -/
def Call.is_verify_range : Call → Bool
  | Call.verify_configuration_flash _ _ => true
  | _ => false

/-- An erase call. -/
def Call.is_erase : Call → Bool
  | Call.erase_flash _ => true
  | _ => false

/-- The calls of unsafe-abort, in order. -/
def unsafe_abort_calls (erase_type : Nat) : List Call :=
  [Call.erase_flash erase_type, Call.wait_not_busy, Call.refresh]

/-- The number of iterations of a loop `for (i = 0; i < L; i += D)`. -/
def iterations (L D : Nat) : Nat := (L + D - 1) / D

/-- The length of the `k`-th verify chunk of a payload of `L` bytes: what is left
at offset `k * (P * 8)`, at most eight pages. -/
def chunk_len (P L k : Nat) : Nat := min (L - k * (P * 8)) (P * 8)

/-- The read-verify-range call of the `k`-th chunk of a payload. -/
def chunk_call (P : Nat) (data : List Nat) (k : Nat) : Call :=
  Call.verify_configuration_flash ((data.drop (k * (P * 8))).take (chunk_len P data.length k))
    (chunk_len P data.length k)

/-- The write-page call of page `k` of a payload and the busy-wait after it. -/
def page_calls (P : Nat) (data : List Nat) (k : Nat) : List Call :=
  [Call.program_configuration_flash ((data.drop (k * P)).take P) P, Call.wait_not_busy]

/-- The program phase of the `case` of a record (main.c 104-121, 154-162, 175-177). -/
def program_phase (P op : Nat) (env : Env) (erase_type : Nat) (r : Record)
    (tag_data_seen : Bool) (t : Trace) : Flow × Trace :=
  match r.sect with
  | Section.FUSE_MAP => fuse_map_program P op env erase_type r tag_data_seen t
  | Section.ARCH =>
    if op &&& DO_FEATURE ≠ 0 then arch_program op env erase_type r t else (Flow.next, t)
  | Section.USERCODE => usercode_program op env erase_type r t
  | _ => (Flow.next, t)

/-- The verify phase of the `case` of a record (main.c 122-150, 163-171, 178-180). -/
def verify_phase (P op : Nat) (env : Env) (r : Record)
    (tag_data_seen : Bool) (t : Trace) : Flow × Trace :=
  match r.sect with
  | Section.FUSE_MAP => fuse_map_verify P op env r tag_data_seen t
  | Section.ARCH =>
    if op &&& DO_FEATURE ≠ 0 then arch_verify op env r t else (Flow.next, t)
  | Section.USERCODE => usercode_verify op env r t
  | _ => (Flow.next, t)

/-- A record that sets `tag_data_seen`: a Note whose text, the bytes before the
first NUL of its payload, contains `"TAG DATA"`. -/
def has_marker (r : Record) : Prop :=
  r.sect = Section.NOTE ∧ TAG_DATA <:+: cstr r.data

/-- The calls `ext` a piece of code adds to the trace `t` all satisfy `Q`. -/
def emits (Q : Call → Prop) (t : Trace) (res : Flow × Trace) : Prop :=
  ∃ ext, res.2 = t ++ ext ∧ ∀ c ∈ ext, Q c

/-- A call that, if it is a set-target-page call, passes `tag`. -/
def passes_tag (tag : Bool) (c : Call) : Prop :=
  ∀ pg tg, c = Call.set_configuration_flash_address pg tg → tg = tag

/-- A feature-row or feature-bits primitive, program or verify. -/
def Call.is_feature_call : Call → Bool
  | Call.program_feature_row _ => true
  | Call.program_feature_bits _ => true
  | Call.verify_feature_row _ => true
  | Call.verify_feature_bits _ => true
  | _ => false

/-- The calls the `case` of the record `r` can issue under the operation mask `op`:
a program primitive only with Program requested, a verify primitive only with Verify
requested, set-target-page only with one of them and with the current
`tag_data_seen`, erase only with the erase mask of the session and only with Program
requested or for an unknown section tag, commit only for the End record, and
busy-wait and refresh. -/
def allowed (op erase_type : Nat) (tag : Bool) (r : Record) (c : Call) : Prop :=
  match c with
  | Call.check_device_id_quick => False
  | Call.enable_offline_configuration => False
  | Call.wait_not_busy => True
  | Call.erase_flash x =>
    x = erase_type ∧ (op &&& DO_FLASH ≠ 0 ∨ ∃ k, r.sect = Section.UNKNOWN k)
  | Call.refresh => True
  | Call.set_configuration_flash_address _ tg =>
    tg = tag ∧ (op &&& DO_FLASH ≠ 0 ∨ op &&& DO_VERIFY ≠ 0)
  | Call.program_configuration_flash _ _ => op &&& DO_FLASH ≠ 0
  | Call.verify_configuration_flash _ _ => op &&& DO_VERIFY ≠ 0
  | Call.program_feature_row _ => op &&& DO_FLASH ≠ 0
  | Call.program_feature_bits _ => op &&& DO_FLASH ≠ 0
  | Call.verify_feature_row _ => op &&& DO_VERIFY ≠ 0
  | Call.verify_feature_bits _ => op &&& DO_VERIFY ≠ 0
  | Call.program_user_code _ => op &&& DO_FLASH ≠ 0
  | Call.verify_user_code _ => op &&& DO_VERIFY ≠ 0
  | Call.program_done => r.sect = Section.END

/-- A program primitive: write-page, program-feature-row, program-feature-bits or
program-user-code. -/
def Call.is_program_primitive : Call → Bool
  | Call.program_configuration_flash _ _ => true
  | Call.program_feature_row _ => true
  | Call.program_feature_bits _ => true
  | Call.program_user_code _ => true
  | _ => false

/-- A verify primitive: read-verify-range, verify-feature-row, verify-feature-bits or
verify-user-code. -/
def Call.is_verify_primitive : Call → Bool
  | Call.verify_configuration_flash _ _ => true
  | Call.verify_feature_row _ => true
  | Call.verify_feature_bits _ => true
  | Call.verify_user_code _ => true
  | _ => false

/-- The flows of a program or verify phase: it falls through, it ends the run with
`exit(1)`, or a loop has used up its bound. -/
def phase_flow (f : Flow) : Prop := f = Flow.next ∨ f = Flow.exit 1 ∨ f = Flow.stuck

/-! ## The command line (main.c 219-287) -/

/-- The transport kinds of `machxo.h`. -/
inductive Mode
  | MODE_SPI
  | MODE_I2C
  deriving DecidableEq, Repr

/-- The locals of `main` that the option loop sets (main.c 221-224). -/
structure Options where
  device_file : Option (List Char)
  mode : Mode
  i2c_addr : Int
  op : Nat
  deriving DecidableEq, Repr

/-- What `main` uses and the sources do not define: `strtol` and the `long` limits of
the C library, the two `open_` functions and the default device names. -/
structure Host where
  strtol : List Char → Int
  LONG_MIN : Int
  LONG_MAX : Int
  open_jedec : Option (List Char) → Int
  open_device : List Char → Mode → Int → Int
  DEFAULT_SPI_DEV : List Char
  DEFAULT_I2C_DEV : List Char

/-- The character `s[i]` of a C string: the NUL terminator at its end. -/
def ch (s : List Char) (i : Nat) : Char := s.getD i (Char.ofNat 0)

/-- The statement `op &= ~bit` on the `int` `op`. -/
def clear_bit (op bit : Nat) : Nat := op &&& (0xFFFFFFFF ^^^ bit)

/-- The option loop of `main` (main.c 233-277) over the arguments still to read;
`none` is `print_usage`, which ends the process with `exit(1)`. -/
def parse_options (host : Host) : List (List Char) → Options → Option (Options × List (List Char))
  | [], o => some (o, [])
  | a :: rest, o =>
    if ch a 0 = '-' then
      if ch a 1 = 'd' ∧ ch a 2 = Char.ofNat 0 then
        match rest with
        | [] => none
        | v :: rest1 => parse_options host rest1 { o with device_file := some v }
      else if ch a 1 = 'a' ∧ ch a 2 = Char.ofNat 0 then
        match rest with
        | [] => none
        | v :: rest1 =>
          if host.strtol v = host.LONG_MIN ∨ host.strtol v = host.LONG_MAX then none
          else parse_options host rest1 { o with i2c_addr := host.strtol v, mode := Mode.MODE_I2C }
      else if ch a 1 = 'e' ∧ ch a 2 = Char.ofNat 0 then
        parse_options host rest { o with op := clear_bit o.op DO_ERASE }
      else if ch a 1 = 'f' ∧ ch a 2 = Char.ofNat 0 then
        parse_options host rest { o with op := clear_bit o.op DO_FLASH }
      else if ch a 1 = 'v' ∧ ch a 2 = Char.ofNat 0 then
        parse_options host rest { o with op := clear_bit o.op DO_VERIFY }
      else if ch a 1 = 'r' ∧ ch a 2 = Char.ofNat 0 then
        parse_options host rest { o with op := clear_bit o.op DO_REFRESH }
      else if ch a 1 = 'F' ∧ ch a 2 = Char.ofNat 0 then
        parse_options host rest { o with op := clear_bit o.op DO_FEATURE }
      else if ch a 1 = 'u' ∧ ch a 2 = Char.ofNat 0 then
        parse_options host rest { o with op := clear_bit o.op DO_USERFLASH }
      else none
    else some (o, a :: rest)

/-- The initial values of the locals of `main` (main.c 221-224). -/
def initial_options : Options :=
  ⟨none, Mode.MODE_SPI, 0x40,
    DO_ERASE ||| DO_FLASH ||| DO_VERIFY ||| DO_REFRESH ||| DO_FEATURE ||| DO_USERFLASH⟩

/-- The function `main` (main.c 219-287) on the arguments after the program name; the
result is the exit status, `none` when the run is not over within the pull results
given. -/
def main (P : Nat) (k : EraseBits) (host : Host) (env : Env)
    (stream : List (Option Record)) (args : List (List Char)) : Option Nat :=
  if args.length + 1 < 2 then some 1
  else
    match parse_options host args initial_options with
    | none => some 1
    | some (o, rest) =>
      if host.open_jedec rest.head? ≠ 1 then some 1
      else
        let device_file := match o.device_file with
          | some d => d
          | none => if o.mode = Mode.MODE_SPI then host.DEFAULT_SPI_DEV else host.DEFAULT_I2C_DEV
        if host.open_device device_file o.mode o.i2c_addr ≠ 1 then some 1
        else main_run P k o.op env stream

/-! ## Vocabulary of the statements on the command line -/

/-- The six flags that clear a bit of the operation mask. -/
def flag_e : List Char := ['-', 'e']
def flag_f : List Char := ['-', 'f']
def flag_v : List Char := ['-', 'v']
def flag_r : List Char := ['-', 'r']
def flag_F : List Char := ['-', 'F']
def flag_u : List Char := ['-', 'u']

/-- An argument that is one of the six flags. -/
def is_mask_flag (a : List Char) : Prop :=
  a = flag_e ∨ a = flag_f ∨ a = flag_v ∨ a = flag_r ∨ a = flag_F ∨ a = flag_u

instance is_mask_flag_decidable (a : List Char) : Decidable (is_mask_flag a) := by
  unfold is_mask_flag
  infer_instance

/-- The full mask 63 with the bits of the given flags cleared. -/
def mask_of (e f v r F u : Bool) : Nat :=
  63 - ((if e then 1 else 0) + (if f then 2 else 0) + (if v then 4 else 0)
    + (if r then 8 else 0) + (if F then 16 else 0) + (if u then 32 else 0))

/-- The operation mask the claim gives for a sequence of flags: the full mask 63
with exactly the bits of the flags that occur in it cleared. -/
def expected_op (flags : List (List Char)) : Nat :=
  mask_of (decide (flag_e ∈ flags)) (decide (flag_f ∈ flags)) (decide (flag_v ∈ flags))
    (decide (flag_r ∈ flags)) (decide (flag_F ∈ flags)) (decide (flag_u ∈ flags))

/-- The calls `l`, issued in this order after the trace `t`, all succeed. -/
def succeeds (env : Env) : Trace → List Call → Prop
  | _, [] => True
  | t, c :: l => env t c = 1 ∧ succeeds env (t ++ [c]) l

instance succeeds_decidable (env : Env) :
    (t : Trace) → (l : List Call) → Decidable (succeeds env t l)
  | _, [] => isTrue trivial
  | t, c :: l =>
    @instDecidableAnd (env t c = 1) (succeeds env (t ++ [c]) l) inferInstance
      (succeeds_decidable env (t ++ [c]) l)

/-- The policy of a phase: issue the calls `l` in order after the trace `t`; at the
first one that fails, issue the recovery calls `tail` and end with `exit(1)`; fall
through when all have succeeded. -/
def replay (env : Env) (tail : List Call) : Trace → List Call → Flow × Trace
  | t, [] => (Flow.next, t)
  | t, c :: l =>
    if env t c ≠ 1 then (Flow.exit 1, t ++ [c] ++ tail) else replay env tail (t ++ [c]) l

/-- The calls of the program phase of a record that passes the tests of its `case`,
as far as every one of them succeeds: for a FuseMap record with Program requested
and a non-zero byte, set-target-page and a write-page and a busy-wait per page; for
an Arch record with FeatureRow and Program requested, program-feature-row,
busy-wait, program-feature-bits, busy-wait; for a UserCode record with Program
requested, program-user-code and busy-wait. -/
def expected_program_calls (P op : Nat) (r : Record) (tag : Bool) : List Call :=
  match r.sect with
  | Section.FUSE_MAP =>
    if op &&& DO_FLASH ≠ 0 ∧ all_zero r.data = false then
      Call.set_configuration_flash_address (r.address / P) tag ::
        (List.range (r.data_len / P)).flatMap (page_calls P r.data)
    else []
  | Section.ARCH =>
    if op &&& DO_FEATURE ≠ 0 ∧ op &&& DO_FLASH ≠ 0 then
      [Call.program_feature_row (r.data.take 8), Call.wait_not_busy,
        Call.program_feature_bits ((r.data.drop 8).take 2), Call.wait_not_busy]
    else []
  | Section.USERCODE =>
    if op &&& DO_FLASH ≠ 0 then [Call.program_user_code r.address, Call.wait_not_busy]
    else []
  | _ => []

/-- The calls of the verify phase of a record that passes the tests of its `case`,
as far as every one of them succeeds: for a FuseMap record with Verify requested,
set-target-page and the read-verify-range chunks; for an Arch record with
FeatureRow and Verify requested, verify-feature-row and verify-feature-bits; for a
UserCode record with Verify requested, verify-user-code. -/
def expected_verify_calls (P op : Nat) (r : Record) (tag : Bool) : List Call :=
  match r.sect with
  | Section.FUSE_MAP =>
    if op &&& DO_VERIFY ≠ 0 then
      Call.set_configuration_flash_address (r.address / P) tag ::
        (List.range (iterations r.data_len (P * 8))).map (chunk_call P r.data)
    else []
  | Section.ARCH =>
    if op &&& DO_FEATURE ≠ 0 ∧ op &&& DO_VERIFY ≠ 0 then
      [Call.verify_feature_row (r.data.take 8),
        Call.verify_feature_bits ((r.data.drop 8).take 2)]
    else []
  | Section.USERCODE =>
    if op &&& DO_VERIFY ≠ 0 then [Call.verify_user_code r.address] else []
  | _ => []

/-- A record that passes the structural tests of its `case`: a FuseMap record with
address and length multiples of the page size, an Arch record of length 10. -/
def well_formed (P : Nat) (r : Record) : Prop :=
  match r.sect with
  | Section.FUSE_MAP => r.address % P = 0 ∧ r.data_len % P = 0
  | Section.ARCH => r.data_len = 10
  | _ => True

instance well_formed_decidable (P : Nat) (r : Record) : Decidable (well_formed P r) := by
  unfold well_formed
  split <;> infer_instance

/-! ## Basic facts -/

theorem div_mul_ne_iff (a P : Nat) : (a / P) * P ≠ a ↔ a % P ≠ 0 := by
  have h := Nat.div_add_mod a P
  rw [Nat.mul_comm] at h
  constructor <;> intro h1 <;> omega

theorem abort_and_clean_up_eq (env : Env) (erase_type : Nat) (t : Trace) :
    abort_and_clean_up env erase_type t = (Flow.exit 1, t ++ unsafe_abort_calls erase_type) := by
  simp [abort_and_clean_up, unsafe_abort_calls]

theorem just_abort_eq (env : Env) (t : Trace) :
    just_abort env t = (Flow.exit 1, t ++ [Call.refresh]) := by
  simp [just_abort]

theorem do_work_loop_some (P op : Nat) (env : Env) (erase_type : Nat) (r : Record)
    (rest : List (Option Record)) (tag : Bool) (t : Trace) (n : Nat) :
    do_work_loop P op env erase_type (some r :: rest) tag t n =
      match (dispatch P op env erase_type r tag t).1 with
      | Flow.next => do_work_loop P op env erase_type rest (latch tag r)
          (dispatch P op env erase_type r tag t).2 (n + 1)
      | f => ⟨f, (dispatch P op env erase_type r tag t).2, n + 1⟩ := by
  simp [do_work_loop]

/-- When the `switch` on a record ends in `exit`, so does the loop, with the trace
of the `switch` and without another pull. -/
theorem do_work_loop_exit (P op : Nat) (env : Env) (erase_type : Nat) (r : Record)
    (rest : List (Option Record)) (tag : Bool) (t : Trace) (n : Nat) (code : Nat) (t1 : Trace)
    (h : dispatch P op env erase_type r tag t = (Flow.exit code, t1)) :
    do_work_loop P op env erase_type (some r :: rest) tag t n = ⟨Flow.exit code, t1, n + 1⟩ := by
  rw [do_work_loop_some, h]

theorem iterations_step (x D : Nat) (hD : 0 < D) (hx : 0 < x) :
    iterations x D = iterations (x - D) D + 1 := by
  unfold iterations
  by_cases h : x ≤ D
  · have h0 : x - D = 0 := by omega
    rw [h0]
    have h1 : (0 + D - 1) / D = 0 := Nat.div_eq_of_lt (by omega)
    rw [h1]
    apply Nat.div_eq_of_lt_le <;> omega
  · have h2 : x + D - 1 = (x - D + D - 1) + D := by omega
    rw [h2, Nat.add_div_right _ hD]

theorem iterations_zero (D : Nat) (hD : 0 < D) : iterations 0 D = 0 := by
  unfold iterations
  exact Nat.div_eq_of_lt (by omega)

theorem lt_iterations_iff (L D k : Nat) (hD : 0 < D) : k < iterations L D ↔ k * D < L := by
  unfold iterations
  rw [Nat.lt_iff_add_one_le, Nat.le_div_iff_mul_le hD, Nat.add_mul]
  omega

theorem iterations_le (L D : Nat) (hD : 0 < D) : iterations L D ≤ L := by
  by_contra h
  have h1 : L < iterations L D := by omega
  rw [lt_iterations_iff L D L hD] at h1
  have : L * 1 ≤ L * D := Nat.mul_le_mul_left L hD
  omega

theorem block_len_eq (x D : Nat) : (if x > D then D else x) = min x D := by
  split <;> omega

theorem verify_blocks_from (P : Nat) (env : Env) (data : List Nat) (hP : 0 < P)
    (henv : ∀ t d l, env t (Call.verify_configuration_flash d l) = 1) :
    ∀ fuel i t, iterations (data.length - i) (P * 8) < fuel →
      verify_blocks P env data fuel i t =
        (Flow.next, t ++ (List.range (iterations (data.length - i) (P * 8))).map
          (fun k => Call.verify_configuration_flash
            ((data.drop (i + k * (P * 8))).take (min (data.length - (i + k * (P * 8))) (P * 8)))
            (min (data.length - (i + k * (P * 8))) (P * 8)))) := by
  have hD : 0 < P * 8 := by omega
  intro fuel
  induction fuel with
  | zero => intro i t h; omega
  | succ f ih =>
    intro i t h
    unfold verify_blocks
    by_cases hi : i < data.length
    · have hstep := iterations_step (data.length - i) (P * 8) hD (by omega)
      have hsub : data.length - i - P * 8 = data.length - (i + P * 8) := by omega
      rw [hsub] at hstep
      simp only [hi, if_true, henv, ne_eq, not_true_eq_false, if_false, block_len_eq]
      rw [ih (i + P * 8) _ (by omega), hstep, List.range_succ_eq_map]
      simp only [List.map_cons, List.map_map, List.append_assoc, List.singleton_append,
        Nat.zero_mul, Nat.add_zero]
      congr 3
      apply List.map_congr_left
      intro k _
      simp only [Function.comp, Nat.succ_eq_add_one, Nat.add_mul, Nat.one_mul]
      have e : i + P * 8 + k * (P * 8) = i + (k * (P * 8) + P * 8) := by omega
      rw [e]
    · have h0 : data.length - i = 0 := by omega
      simp [hi, h0, iterations_zero _ hD]

theorem verify_blocks_ok (P : Nat) (env : Env) (data : List Nat) (hP : 0 < P)
    (henv : ∀ t d l, env t (Call.verify_configuration_flash d l) = 1) (t : Trace) :
    verify_blocks P env data (data.length + 1) 0 t =
      (Flow.next, t ++ (List.range (iterations data.length (P * 8))).map (chunk_call P data)) := by
  have hD : 0 < P * 8 := by omega
  have h := verify_blocks_from P env data hP henv (data.length + 1) 0 t
    (by have := iterations_le data.length (P * 8) hD; simp only [Nat.sub_zero]; omega)
  simp only [Nat.sub_zero, Nat.zero_add] at h
  rw [h]
  rfl

theorem iterations_of_mod (L D : Nat) (hD : 0 < D) (h : L % D = 0) : iterations L D = L / D := by
  unfold iterations
  obtain ⟨q, hq⟩ := Nat.dvd_of_mod_eq_zero h
  subst hq
  rw [Nat.mul_div_cancel_left q hD]
  apply Nat.div_eq_of_lt_le
  · rw [Nat.mul_comm]; omega
  · rw [Nat.add_mul, Nat.mul_comm q D]; omega

theorem program_pages_from (P : Nat) (env : Env) (erase_type : Nat) (data : List Nat)
    (hP : 0 < P)
    (hprog : ∀ t d l, env t (Call.program_configuration_flash d l) = 1)
    (hwait : ∀ t, env t Call.wait_not_busy = 1) :
    ∀ fuel i t, iterations (data.length - i) P < fuel →
      program_pages P env erase_type data fuel i t =
        (Flow.next, t ++ (List.range (iterations (data.length - i) P)).flatMap
          (fun k => [Call.program_configuration_flash ((data.drop (i + k * P)).take P) P,
            Call.wait_not_busy])) := by
  intro fuel
  induction fuel with
  | zero => intro i t h; omega
  | succ f ih =>
    intro i t h
    unfold program_pages
    by_cases hi : i < data.length
    · have hstep := iterations_step (data.length - i) P hP (by omega)
      have hsub : data.length - i - P = data.length - (i + P) := by omega
      rw [hsub] at hstep
      simp only [hi, if_true, hprog, hwait, ne_eq, not_true_eq_false, if_false]
      rw [ih (i + P) _ (by omega), hstep, List.range_succ_eq_map]
      simp only [List.flatMap_cons, List.flatMap_map, List.append_assoc, List.singleton_append,
        Nat.zero_mul, Nat.add_zero, List.cons_append, List.nil_append]
      congr 4
      apply List.flatMap_congr
      intro k _
      simp only [Function.comp, Nat.succ_eq_add_one, Nat.add_mul, Nat.one_mul]
      have e : i + P + k * P = i + (k * P + P) := by omega
      rw [e]
    · have h0 : data.length - i = 0 := by omega
      simp [hi, h0, iterations_zero _ hP]

theorem program_pages_ok (P : Nat) (env : Env) (erase_type : Nat) (data : List Nat)
    (hP : 0 < P) (hlen : data.length % P = 0)
    (hprog : ∀ t d l, env t (Call.program_configuration_flash d l) = 1)
    (hwait : ∀ t, env t Call.wait_not_busy = 1) (t : Trace) :
    program_pages P env erase_type data (data.length + 1) 0 t =
      (Flow.next, t ++ (List.range (data.length / P)).flatMap (page_calls P data)) := by
  have h := program_pages_from P env erase_type data hP hprog hwait (data.length + 1) 0 t
    (by have := iterations_le data.length P hP; simp only [Nat.sub_zero]; omega)
  simp only [Nat.sub_zero, Nat.zero_add, iterations_of_mod _ _ hP hlen] at h
  rw [h]
  rfl

theorem all_zero_iff (data : List Nat) : all_zero data = true ↔ ∀ b ∈ data, b = 0 := by
  induction data with
  | nil => simp [all_zero]
  | cons b bs ih =>
    unfold all_zero
    by_cases hb : b = 0
    · simp [hb, ih]
    · simp [hb]

theorem chunk_len_sum (P L : Nat) (k : Nat) :
    ((List.range k).map (chunk_len P L)).sum = min L (k * (P * 8)) := by
  induction k with
  | zero => simp
  | succ k ih =>
    rw [List.range_succ, List.map_append, List.sum_append, ih]
    simp only [List.map_cons, List.map_nil, List.sum_cons, List.sum_nil, chunk_len, Nat.add_mul]
    omega

theorem chunk_len_total (P L : Nat) (hP : 0 < P) :
    ((List.range (iterations L (P * 8))).map (chunk_len P L)).sum = L := by
  rw [chunk_len_sum]
  have hD : 0 < P * 8 := by omega
  have h : ¬ iterations L (P * 8) < iterations L (P * 8) := Nat.lt_irrefl _
  rw [lt_iterations_iff L (P * 8) _ hD] at h
  omega

/-- The calls of a verify phase in which every primitive succeeds. -/
theorem fuse_map_verify_ok (P op : Nat) (env : Env) (r : Record) (tag : Bool) (t : Trace)
    (hP : 0 < P) (hv : op &&& DO_VERIFY ≠ 0)
    (ha : r.address % P = 0) (hl : r.data_len % P = 0)
    (hset : ∀ t pg tg, env t (Call.set_configuration_flash_address pg tg) = 1)
    (hver : ∀ t d l, env t (Call.verify_configuration_flash d l) = 1) :
    fuse_map_verify P op env r tag t =
      (Flow.next, t ++ Call.set_configuration_flash_address (r.address / P) tag ::
        (List.range (iterations r.data_len (P * 8))).map (chunk_call P r.data)) := by
  have ha1 : ¬ (r.address / P) * P ≠ r.address := by rw [div_mul_ne_iff]; simpa using ha
  have hl1 : ¬ (r.data_len / P) * P ≠ r.data_len := by rw [div_mul_ne_iff]; simpa using hl
  unfold fuse_map_verify
  simp only [hv, if_true, ha1, hl1, if_false, hset, ne_eq, not_true_eq_false]
  rw [Record.data_len, verify_blocks_ok P env r.data hP hver]
  simp

theorem fuse_map_program_all_zero (P op : Nat) (env : Env) (erase_type : Nat) (r : Record)
    (tag : Bool) (t : Trace) (hf : op &&& DO_FLASH ≠ 0)
    (ha : r.address % P = 0) (hl : r.data_len % P = 0) (hz : ∀ b ∈ r.data, b = 0) :
    fuse_map_program P op env erase_type r tag t = (Flow.next, t) := by
  have ha1 : ¬ (r.address / P) * P ≠ r.address := by rw [div_mul_ne_iff]; simpa using ha
  have hl1 : ¬ (r.data_len / P) * P ≠ r.data_len := by rw [div_mul_ne_iff]; simpa using hl
  have hz1 : all_zero r.data = true := (all_zero_iff _).2 hz
  unfold fuse_map_program
  simp [hf, ha1, hl1, hz1]

theorem fuse_map_program_ok (P op : Nat) (env : Env) (erase_type : Nat) (r : Record)
    (tag : Bool) (t : Trace) (hP : 0 < P) (hf : op &&& DO_FLASH ≠ 0)
    (ha : r.address % P = 0) (hl : r.data_len % P = 0) (hnz : ∃ b ∈ r.data, b ≠ 0)
    (hset : ∀ t pg tg, env t (Call.set_configuration_flash_address pg tg) = 1)
    (hprog : ∀ t d l, env t (Call.program_configuration_flash d l) = 1)
    (hwait : ∀ t, env t Call.wait_not_busy = 1) :
    fuse_map_program P op env erase_type r tag t =
      (Flow.next, t ++ Call.set_configuration_flash_address (r.address / P) tag ::
        (List.range (r.data_len / P)).flatMap (page_calls P r.data)) := by
  have ha1 : ¬ (r.address / P) * P ≠ r.address := by rw [div_mul_ne_iff]; simpa using ha
  have hl1 : ¬ (r.data_len / P) * P ≠ r.data_len := by rw [div_mul_ne_iff]; simpa using hl
  have hz1 : ¬ all_zero r.data = true := by
    rw [all_zero_iff]
    obtain ⟨b, hb, hb0⟩ := hnz
    exact fun h => hb0 (h b hb)
  unfold fuse_map_program
  simp only [hf, if_true, ha1, hl1, if_false, hz1, not_false_eq_true, hset, ne_eq,
    not_true_eq_false]
  rw [Record.data_len, program_pages_ok P env erase_type r.data hP hl hprog hwait]
  simp

theorem chunk_len_facts (P L k : Nat) (hP : 0 < P) (hl : L % P = 0)
    (hk : k < iterations L (P * 8)) :
    0 < chunk_len P L k ∧ chunk_len P L k % P = 0 ∧ chunk_len P L k ≤ 8 * P
      ∧ ((List.range k).map (chunk_len P L)).sum = k * (8 * P) := by
  have hD : 0 < P * 8 := by omega
  rw [lt_iterations_iff L (P * 8) k hD] at hk
  have hsum := chunk_len_sum P L k
  have h8 : 8 * P = P * 8 := Nat.mul_comm 8 P
  refine ⟨?_, ?_, ?_, ?_⟩
  · unfold chunk_len; omega
  · unfold chunk_len
    rcases Nat.le_total (L - k * (P * 8)) (P * 8) with h | h
    · rw [Nat.min_eq_left h]
      have e : k * (P * 8) = P * (8 * k) := by ring
      rw [e, Nat.sub_mul_mod (by rw [← e]; omega)]
      exact hl
    · rw [Nat.min_eq_right h]
      exact Nat.mul_mod_right P 8
  · unfold chunk_len; omega
  · rw [hsum, h8]; omega

theorem dispatch_phases (P op : Nat) (env : Env) (erase_type : Nat) (r : Record)
    (tag : Bool) (t : Trace)
    (hk : r.sect = Section.FUSE_MAP ∨ r.sect = Section.ARCH ∨ r.sect = Section.USERCODE) :
    dispatch P op env erase_type r tag t =
      and_then (program_phase P op env erase_type r tag t) (verify_phase P op env r tag) := by
  rcases hk with h | h | h
  · have hv : verify_phase P op env r tag = fuse_map_verify P op env r tag := by
      funext t1; simp [verify_phase, h]
    simp [dispatch, program_phase, hv, h]
  · by_cases hf : op &&& DO_FEATURE ≠ 0
    · have hv : verify_phase P op env r tag = arch_verify op env r := by
        funext t1; simp [verify_phase, h, hf]
      simp [dispatch, program_phase, hv, h, hf]
    · have hv : verify_phase P op env r tag = fun t1 => (Flow.next, t1) := by
        funext t1; simp [verify_phase, h, hf]
      simp [dispatch, program_phase, hv, h, hf, and_then]
  · have hv : verify_phase P op env r tag = usercode_verify op env r := by
      funext t1; simp [verify_phase, h]
    simp [dispatch, program_phase, hv, h]

/-- When `do_work` gets past its set-up it runs the loop on the records after the
leading one, with `tag_data_seen = 0` and the erase mask of main.c 74-80; otherwise
it has ended with `exit(1)` after one pull. -/
theorem do_work_runs_loop (P : Nat) (k : EraseBits) (op : Nat) (env : Env) (lead : Record) :
    (∃ t0, ∀ s, do_work P k op env (some lead :: s)
        = do_work_loop P op env (compute_erase_type k op) s false t0 1)
      ∨ (∃ t0, ∀ s, do_work P k op env (some lead :: s) = ⟨Flow.exit 1, t0, 1⟩) := by
  by_cases h1 : env [] Call.check_device_id_quick ≠ 1
  · exact Or.inr ⟨[Call.check_device_id_quick], fun s => by simp [do_work, h1]⟩
  by_cases h2 : env [Call.check_device_id_quick] Call.enable_offline_configuration ≠ 1
  · exact Or.inr ⟨[Call.check_device_id_quick, Call.enable_offline_configuration],
      fun s => by simp [do_work, h1, h2]⟩
  by_cases h3 : env [Call.check_device_id_quick, Call.enable_offline_configuration]
      Call.wait_not_busy ≠ 1
  · exact Or.inr ⟨[Call.check_device_id_quick, Call.enable_offline_configuration,
      Call.wait_not_busy], fun s => by simp [do_work, h1, h2, h3]⟩
  by_cases h4 : op &&& DO_ERASE ≠ 0
  · by_cases h5 : env [Call.check_device_id_quick, Call.enable_offline_configuration,
        Call.wait_not_busy] (Call.erase_flash (compute_erase_type k op)) ≠ 1
    · exact Or.inr ⟨[Call.check_device_id_quick, Call.enable_offline_configuration,
        Call.wait_not_busy, Call.erase_flash (compute_erase_type k op)],
        fun s => by simp [do_work, h1, h2, h3, h4, h5]⟩
    by_cases h6 : env [Call.check_device_id_quick, Call.enable_offline_configuration,
        Call.wait_not_busy, Call.erase_flash (compute_erase_type k op)]
        Call.wait_not_busy ≠ 1
    · exact Or.inr ⟨[Call.check_device_id_quick, Call.enable_offline_configuration,
        Call.wait_not_busy, Call.erase_flash (compute_erase_type k op), Call.wait_not_busy],
        fun s => by simp [do_work, h1, h2, h3, h4, h5, h6]⟩
    · exact Or.inl ⟨[Call.check_device_id_quick, Call.enable_offline_configuration,
        Call.wait_not_busy, Call.erase_flash (compute_erase_type k op), Call.wait_not_busy],
        fun s => by simp [do_work, h1, h2, h3, h4, h5, h6]⟩
  · exact Or.inl ⟨[Call.check_device_id_quick, Call.enable_offline_configuration,
      Call.wait_not_busy], fun s => by simp [do_work, h1, h2, h3, h4]⟩

theorem occurs_iff (needle hay : List Nat) : occurs needle hay = true ↔ needle <:+: hay := by
  induction hay with
  | nil => simp [occurs, List.isPrefixOf_iff_prefix]
  | cons c cs ih =>
    rw [occurs, Bool.or_eq_true, ih, List.isPrefixOf_iff_prefix, List.infix_cons_iff]

theorem latch_iff (tag : Bool) (r : Record) :
    latch tag r = true ↔ tag = true ∨ has_marker r := by
  unfold latch has_marker
  split
  · rename_i h
    simp only [h, true_and, strstr, ← occurs_iff]
    by_cases ho : occurs TAG_DATA (cstr r.data) = true
    · simp [ho]
    · simp [ho]
  · rename_i h
    have hn : ¬ r.sect = Section.NOTE := fun e => h e
    simp [hn]

theorem foldl_latch_iff (pre : List Record) :
    ∀ tag, pre.foldl latch tag = true ↔ tag = true ∨ ∃ q ∈ pre, has_marker q := by
  induction pre with
  | nil => intro tag; simp
  | cons r pre ih =>
    intro tag
    rw [List.foldl_cons, ih, latch_iff]
    simp only [List.mem_cons, exists_eq_or_imp]
    tauto

theorem emits_refl (Q : Call → Prop) (t : Trace) (f : Flow) : emits Q t (f, t) :=
  ⟨[], by simp, by simp⟩

theorem emits_append (Q : Call → Prop) (t : Trace) (l : List Call) (res : Flow × Trace)
    (hl : ∀ c ∈ l, Q c) (h : emits Q (t ++ l) res) : emits Q t res := by
  obtain ⟨ext, he, hq⟩ := h
  refine ⟨l ++ ext, by rw [he, List.append_assoc], ?_⟩
  intro c hc
  rcases List.mem_append.1 hc with h1 | h1
  · exact hl c h1
  · exact hq c h1

theorem emits_exit (Q : Call → Prop) (t : Trace) (l : List Call) (f : Flow)
    (hl : ∀ c ∈ l, Q c) : emits Q t (f, t ++ l) :=
  emits_append Q t l _ hl (emits_refl Q _ f)

theorem passes_tag_of_not_set (tag : Bool) (c : Call) (h : c.is_set_page = false) :
    passes_tag tag c := by
  intro pg tg hc
  subst hc
  simp [Call.is_set_page] at h

theorem passes_tag_set (tag : Bool) (pg : Nat) :
    passes_tag tag (Call.set_configuration_flash_address pg tag) := by
  intro pg1 tg hc
  cases hc
  rfl

theorem emits_step (Q : Call → Prop) (t : Trace) (c : Call) (res : Flow × Trace)
    (hc : Q c) (h : emits Q (t ++ [c]) res) : emits Q t res :=
  emits_append Q t [c] res (by simpa using hc) h

theorem emits_cleanup (tag : Bool) (env : Env) (erase_type : Nat) (t : Trace) :
    emits (passes_tag tag) t (abort_and_clean_up env erase_type t) := by
  rw [abort_and_clean_up_eq]
  apply emits_exit
  intro c hc
  simp [unsafe_abort_calls] at hc
  rcases hc with h | h | h <;> subst h <;> exact passes_tag_of_not_set _ _ rfl

theorem emits_safe (tag : Bool) (env : Env) (t : Trace) :
    emits (passes_tag tag) t (just_abort env t) := by
  rw [just_abort_eq]
  apply emits_exit
  intro c hc
  simp at hc
  subst hc
  exact passes_tag_of_not_set _ _ rfl

theorem program_pages_emits (tag : Bool) (P : Nat) (env : Env) (erase_type : Nat)
    (data : List Nat) :
    ∀ (fuel i : Nat) (t : Trace),
      emits (passes_tag tag) t (program_pages P env erase_type data fuel i t) := by
  intro fuel
  induction fuel with
  | zero => intro i t; exact emits_refl _ _ _
  | succ f ih =>
    intro i t
    unfold program_pages
    by_cases hi : i < data.length
    · simp only [hi, if_true]
      refine emits_step _ _ (Call.program_configuration_flash ((data.drop i).take P) P) _
        (passes_tag_of_not_set tag _ rfl) ?_
      split
      · exact emits_cleanup _ _ _ _
      · refine emits_step _ _ Call.wait_not_busy _ (passes_tag_of_not_set tag _ rfl) ?_
        split
        · exact emits_cleanup _ _ _ _
        · exact ih _ _
    · simp only [hi, if_false]
      exact emits_refl _ _ _

theorem verify_blocks_emits (tag : Bool) (P : Nat) (env : Env) (data : List Nat) :
    ∀ (fuel i : Nat) (t : Trace),
      emits (passes_tag tag) t (verify_blocks P env data fuel i t) := by
  intro fuel
  induction fuel with
  | zero => intro i t; exact emits_refl _ _ _
  | succ f ih =>
    intro i t
    unfold verify_blocks
    by_cases hi : i < data.length
    · simp only [hi, if_true, block_len_eq]
      refine emits_step _ _ (Call.verify_configuration_flash
        ((data.drop i).take (min (data.length - i) (P * 8))) (min (data.length - i) (P * 8))) _
        (passes_tag_of_not_set tag _ rfl) ?_
      split
      · exact emits_safe _ _ _
      · exact ih _ _
    · simp only [hi, if_false]
      exact emits_refl _ _ _

theorem fuse_map_program_emits (P op : Nat) (env : Env) (erase_type : Nat) (r : Record)
    (tag : Bool) (t : Trace) :
    emits (passes_tag tag) t (fuse_map_program P op env erase_type r tag t) := by
  unfold fuse_map_program
  split
  · split
    · exact emits_cleanup _ _ _ _
    · split
      · exact emits_cleanup _ _ _ _
      · split
        · simp only
          refine emits_step _ _ (Call.set_configuration_flash_address (r.address / P) tag) _
            (passes_tag_set tag _) ?_
          split
          · exact emits_cleanup _ _ _ _
          · exact program_pages_emits _ _ _ _ _ _ _ _
        · exact emits_refl _ _ _
  · exact emits_refl _ _ _

theorem fuse_map_verify_emits (P op : Nat) (env : Env) (r : Record)
    (tag : Bool) (t : Trace) :
    emits (passes_tag tag) t (fuse_map_verify P op env r tag t) := by
  unfold fuse_map_verify
  split
  · split
    · exact emits_safe _ _ _
    · split
      · exact emits_safe _ _ _
      · simp only
        refine emits_step _ _ (Call.set_configuration_flash_address (r.address / P) tag) _
            (passes_tag_set tag _) ?_
        split
        · exact emits_safe _ _ _
        · exact verify_blocks_emits _ _ _ _ _ _ _
  · exact emits_refl _ _ _

theorem arch_program_emits (tag : Bool) (op : Nat) (env : Env) (erase_type : Nat)
    (r : Record) (t : Trace) :
    emits (passes_tag tag) t (arch_program op env erase_type r t) := by
  unfold arch_program
  split
  · split
    · exact emits_cleanup _ _ _ _
    · simp only
      refine emits_step _ _ (Call.program_feature_row (r.data.take 8)) _
        (passes_tag_of_not_set tag _ rfl) ?_
      split
      · exact emits_cleanup _ _ _ _
      · refine emits_step _ _ Call.wait_not_busy _ (passes_tag_of_not_set tag _ rfl) ?_
        split
        · exact emits_cleanup _ _ _ _
        · refine emits_step _ _ (Call.program_feature_bits ((r.data.drop 8).take 2)) _
            (passes_tag_of_not_set tag _ rfl) ?_
          split
          · exact emits_cleanup _ _ _ _
          · refine emits_step _ _ Call.wait_not_busy _ (passes_tag_of_not_set tag _ rfl) ?_
            split
            · exact emits_cleanup _ _ _ _
            · exact emits_refl _ _ _
  · exact emits_refl _ _ _

theorem arch_verify_emits (tag : Bool) (op : Nat) (env : Env) (r : Record) (t : Trace) :
    emits (passes_tag tag) t (arch_verify op env r t) := by
  unfold arch_verify
  split
  · split
    · exact emits_safe _ _ _
    · simp only
      refine emits_step _ _ (Call.verify_feature_row (r.data.take 8)) _
        (passes_tag_of_not_set tag _ rfl) ?_
      split
      · exact emits_safe _ _ _
      · refine emits_step _ _ (Call.verify_feature_bits ((r.data.drop 8).take 2)) _
          (passes_tag_of_not_set tag _ rfl) ?_
        split
        · exact emits_safe _ _ _
        · exact emits_refl _ _ _
  · exact emits_refl _ _ _

theorem usercode_program_emits (tag : Bool) (op : Nat) (env : Env) (erase_type : Nat)
    (r : Record) (t : Trace) :
    emits (passes_tag tag) t (usercode_program op env erase_type r t) := by
  unfold usercode_program
  split
  · simp only
    refine emits_step _ _ (Call.program_user_code r.address) _
      (passes_tag_of_not_set tag _ rfl) ?_
    split
    · exact emits_cleanup _ _ _ _
    · refine emits_step _ _ Call.wait_not_busy _ (passes_tag_of_not_set tag _ rfl) ?_
      split
      · exact emits_cleanup _ _ _ _
      · exact emits_refl _ _ _
  · exact emits_refl _ _ _

theorem usercode_verify_emits (tag : Bool) (op : Nat) (env : Env) (r : Record) (t : Trace) :
    emits (passes_tag tag) t (usercode_verify op env r t) := by
  unfold usercode_verify
  split
  · simp only
    refine emits_step _ _ (Call.verify_user_code r.address) _
      (passes_tag_of_not_set tag _ rfl) ?_
    split
    · exact emits_safe _ _ _
    · exact emits_refl _ _ _
  · exact emits_refl _ _ _

theorem section_end_emits (tag : Bool) (op : Nat) (env : Env) (t : Trace) :
    emits (passes_tag tag) t (section_end op env t) := by
  unfold section_end
  refine emits_step _ _ Call.program_done _ (passes_tag_of_not_set tag _ rfl) ?_
  split
  · simp only
    refine emits_step _ _ Call.wait_not_busy _ (passes_tag_of_not_set tag _ rfl) ?_
    split
    · split
      · refine emits_step _ _ Call.refresh _ (passes_tag_of_not_set tag _ rfl) ?_
        split
        · exact emits_step _ _ Call.wait_not_busy _ (passes_tag_of_not_set tag _ rfl)
            (emits_refl _ _ _)
        · exact emits_refl _ _ _
      · exact emits_refl _ _ _
    · exact emits_refl _ _ _
  · exact emits_refl _ _ _

theorem and_then_emits (Q : Call → Prop) (t : Trace) (a : Flow × Trace)
    (b : Trace → Flow × Trace) (ha : emits Q t a) (hb : ∀ t1, emits Q t1 (b t1)) :
    emits Q t (and_then a b) := by
  unfold and_then
  split
  · obtain ⟨e1, h1, q1⟩ := ha
    obtain ⟨e2, h2, q2⟩ := hb a.2
    refine ⟨e1 ++ e2, by rw [h2, h1, List.append_assoc], ?_⟩
    intro c hc
    rcases List.mem_append.1 hc with h | h
    · exact q1 c h
    · exact q2 c h
  · exact ha

/-- Every set-target-page call issued for a record passes the `tag_data_seen` the
record was dispatched with. -/
theorem dispatch_emits (P op : Nat) (env : Env) (erase_type : Nat) (r : Record)
    (tag : Bool) (t : Trace) :
    emits (passes_tag tag) t (dispatch P op env erase_type r tag t) := by
  unfold dispatch
  split
  · exact emits_refl _ _ _
  · exact and_then_emits _ _ _ _ (fuse_map_program_emits _ _ _ _ _ _ _)
      (fun _ => fuse_map_verify_emits _ _ _ _ _ _)
  · split
    · exact and_then_emits _ _ _ _ (arch_program_emits _ _ _ _ _ _)
        (fun _ => arch_verify_emits _ _ _ _ _)
    · exact emits_refl _ _ _
  · exact and_then_emits _ _ _ _ (usercode_program_emits _ _ _ _ _ _)
      (fun _ => usercode_verify_emits _ _ _ _ _)
  · exact section_end_emits _ _ _ _
  · exact emits_refl _ _ _
  · exact emits_refl _ _ _
  · exact emits_refl _ _ _
  · exact emits_refl _ _ _
  · exact emits_refl _ _ _
  · exact emits_cleanup _ _ _ _

/-- The loop over a prefix of successfully pulled records: either it goes on with the
records after the prefix, `tag_data_seen` being the latch folded over the prefix, or
the run has ended inside the prefix, whatever follows it. -/
theorem do_work_loop_records (P op : Nat) (env : Env) (erase_type : Nat)
    (pre : List Record) :
    ∀ (tag : Bool) (t : Trace) (n : Nat),
      (∃ t1, ∀ s, do_work_loop P op env erase_type (pre.map some ++ s) tag t n
          = do_work_loop P op env erase_type s (pre.foldl latch tag) t1 (n + pre.length))
        ∨ (∃ run : Run, run.flow ≠ Flow.next
            ∧ ∀ s, do_work_loop P op env erase_type (pre.map some ++ s) tag t n = run) := by
  induction pre with
  | nil => intro tag t n; exact Or.inl ⟨t, fun s => by simp⟩
  | cons r pre ih =>
    intro tag t n
    by_cases hd : (dispatch P op env erase_type r tag t).1 = Flow.next
    · rcases ih (latch tag r) (dispatch P op env erase_type r tag t).2 (n + 1) with
        ⟨t1, h⟩ | ⟨run, hf, h⟩
      · refine Or.inl ⟨t1, fun s => ?_⟩
        simp only [List.map_cons, List.cons_append, do_work_loop_some, hd, h s,
          List.foldl_cons, List.length_cons]
        have e : n + 1 + pre.length = n + (pre.length + 1) := by omega
        rw [e]
      · refine Or.inr ⟨run, hf, fun s => ?_⟩
        simp only [List.map_cons, List.cons_append, do_work_loop_some, hd, h s]
    · refine Or.inr ⟨⟨(dispatch P op env erase_type r tag t).1,
        (dispatch P op env erase_type r tag t).2, n + 1⟩, hd, fun s => ?_⟩
      simp only [List.map_cons, List.cons_append, do_work_loop_some]

theorem do_work_loop_next (P op : Nat) (env : Env) (erase_type : Nat) (r : Record)
    (rest : List (Option Record)) (tag : Bool) (t : Trace) (n : Nat) (t1 : Trace)
    (h : dispatch P op env erase_type r tag t = (Flow.next, t1)) :
    do_work_loop P op env erase_type (some r :: rest) tag t n
      = do_work_loop P op env erase_type rest (latch tag r) t1 (n + 1) := by
  rw [do_work_loop_some, h]

theorem do_work_loop_ret (P op : Nat) (env : Env) (erase_type : Nat) (r : Record)
    (rest : List (Option Record)) (tag : Bool) (t : Trace) (n : Nat) (t1 : Trace)
    (h : dispatch P op env erase_type r tag t = (Flow.ret, t1)) :
    do_work_loop P op env erase_type (some r :: rest) tag t n = ⟨Flow.ret, t1, n + 1⟩ := by
  rw [do_work_loop_some, h]

theorem latch_of_not_note (tag : Bool) (r : Record) (h : r.sect ≠ Section.NOTE) :
    latch tag r = tag := by
  unfold latch
  split
  · rename_i h1; exact absurd h1 h
  · rfl

theorem emits_mono (Q Q1 : Call → Prop) (t : Trace) (res : Flow × Trace)
    (h : ∀ c, Q c → Q1 c) (he : emits Q t res) : emits Q1 t res := by
  obtain ⟨ext, h1, h2⟩ := he
  exact ⟨ext, h1, fun c hc => h c (h2 c hc)⟩

theorem cleanup_allowed (op erase_type : Nat) (tag : Bool) (r : Record) (env : Env)
    (t : Trace) (hf : op &&& DO_FLASH ≠ 0 ∨ ∃ k, r.sect = Section.UNKNOWN k) :
    emits (allowed op erase_type tag r) t (abort_and_clean_up env erase_type t) := by
  rw [abort_and_clean_up_eq]
  apply emits_exit
  intro c hc
  simp [unsafe_abort_calls] at hc
  rcases hc with h | h | h <;> subst h <;> simp [allowed, hf]

theorem safe_allowed (op erase_type : Nat) (tag : Bool) (r : Record) (env : Env)
    (t : Trace) :
    emits (allowed op erase_type tag r) t (just_abort env t) := by
  rw [just_abort_eq]
  apply emits_exit
  intro c hc
  simp at hc
  subst hc
  simp [allowed]

theorem program_pages_allowed (op : Nat) (tag : Bool) (r : Record) (P : Nat) (env : Env)
    (erase_type : Nat) (data : List Nat) (hf : op &&& DO_FLASH ≠ 0) :
    ∀ (fuel i : Nat) (t : Trace),
      emits (allowed op erase_type tag r) t (program_pages P env erase_type data fuel i t) := by
  intro fuel
  induction fuel with
  | zero => intro i t; exact emits_refl _ _ _
  | succ f ih =>
    intro i t
    unfold program_pages
    by_cases hi : i < data.length
    · simp only [hi, if_true]
      refine emits_step _ _ (Call.program_configuration_flash ((data.drop i).take P) P) _
        (by simp [allowed, hf]) ?_
      split
      · exact cleanup_allowed _ _ _ _ _ _ (Or.inl hf)
      · refine emits_step _ _ Call.wait_not_busy _ (by simp [allowed]) ?_
        split
        · exact cleanup_allowed _ _ _ _ _ _ (Or.inl hf)
        · exact ih _ _
    · simp only [hi, if_false]
      exact emits_refl _ _ _

theorem verify_blocks_allowed (op erase_type : Nat) (tag : Bool) (r : Record) (P : Nat)
    (env : Env) (data : List Nat) (hv : op &&& DO_VERIFY ≠ 0) :
    ∀ (fuel i : Nat) (t : Trace),
      emits (allowed op erase_type tag r) t (verify_blocks P env data fuel i t) := by
  intro fuel
  induction fuel with
  | zero => intro i t; exact emits_refl _ _ _
  | succ f ih =>
    intro i t
    unfold verify_blocks
    by_cases hi : i < data.length
    · simp only [hi, if_true, block_len_eq]
      refine emits_step _ _ (Call.verify_configuration_flash
        ((data.drop i).take (min (data.length - i) (P * 8))) (min (data.length - i) (P * 8))) _
        (by simp [allowed, hv]) ?_
      split
      · exact safe_allowed _ _ _ _ _ _
      · exact ih _ _
    · simp only [hi, if_false]
      exact emits_refl _ _ _

theorem fuse_map_program_allowed (P op : Nat) (env : Env) (erase_type : Nat) (r : Record)
    (tag : Bool) (t : Trace) :
    emits (allowed op erase_type tag r) t (fuse_map_program P op env erase_type r tag t) := by
  unfold fuse_map_program
  split
  · rename_i hf
    split
    · exact cleanup_allowed _ _ _ _ _ _ (Or.inl hf)
    · split
      · exact cleanup_allowed _ _ _ _ _ _ (Or.inl hf)
      · split
        · simp only
          refine emits_step _ _ (Call.set_configuration_flash_address (r.address / P) tag) _
            (by simp [allowed, hf]) ?_
          split
          · exact cleanup_allowed _ _ _ _ _ _ (Or.inl hf)
          · exact program_pages_allowed _ _ _ _ _ _ _ hf _ _ _
        · exact emits_refl _ _ _
  · exact emits_refl _ _ _

theorem fuse_map_verify_allowed (P op : Nat) (env : Env) (erase_type : Nat) (r : Record)
    (tag : Bool) (t : Trace) :
    emits (allowed op erase_type tag r) t (fuse_map_verify P op env r tag t) := by
  unfold fuse_map_verify
  split
  · rename_i hv
    split
    · exact safe_allowed _ _ _ _ _ _
    · split
      · exact safe_allowed _ _ _ _ _ _
      · simp only
        refine emits_step _ _ (Call.set_configuration_flash_address (r.address / P) tag) _
          (by simp [allowed, hv]) ?_
        split
        · exact safe_allowed _ _ _ _ _ _
        · exact verify_blocks_allowed _ _ _ _ _ _ _ hv _ _ _
  · exact emits_refl _ _ _

theorem arch_program_allowed (op : Nat) (env : Env) (erase_type : Nat) (r : Record)
    (tag : Bool) (t : Trace) :
    emits (allowed op erase_type tag r) t (arch_program op env erase_type r t) := by
  unfold arch_program
  split
  · rename_i hf
    split
    · exact cleanup_allowed _ _ _ _ _ _ (Or.inl hf)
    · simp only
      refine emits_step _ _ (Call.program_feature_row (r.data.take 8)) _
        (by simp [allowed, hf]) ?_
      split
      · exact cleanup_allowed _ _ _ _ _ _ (Or.inl hf)
      · refine emits_step _ _ Call.wait_not_busy _ (by simp [allowed]) ?_
        split
        · exact cleanup_allowed _ _ _ _ _ _ (Or.inl hf)
        · refine emits_step _ _ (Call.program_feature_bits ((r.data.drop 8).take 2)) _
            (by simp [allowed, hf]) ?_
          split
          · exact cleanup_allowed _ _ _ _ _ _ (Or.inl hf)
          · refine emits_step _ _ Call.wait_not_busy _ (by simp [allowed]) ?_
            split
            · exact cleanup_allowed _ _ _ _ _ _ (Or.inl hf)
            · exact emits_refl _ _ _
  · exact emits_refl _ _ _

theorem arch_verify_allowed (op : Nat) (env : Env) (erase_type : Nat) (r : Record)
    (tag : Bool) (t : Trace) :
    emits (allowed op erase_type tag r) t (arch_verify op env r t) := by
  unfold arch_verify
  split
  · rename_i hv
    split
    · exact safe_allowed _ _ _ _ _ _
    · simp only
      refine emits_step _ _ (Call.verify_feature_row (r.data.take 8)) _
        (by simp [allowed, hv]) ?_
      split
      · exact safe_allowed _ _ _ _ _ _
      · refine emits_step _ _ (Call.verify_feature_bits ((r.data.drop 8).take 2)) _
          (by simp [allowed, hv]) ?_
        split
        · exact safe_allowed _ _ _ _ _ _
        · exact emits_refl _ _ _
  · exact emits_refl _ _ _

theorem usercode_program_allowed (op : Nat) (env : Env) (erase_type : Nat) (r : Record)
    (tag : Bool) (t : Trace) :
    emits (allowed op erase_type tag r) t (usercode_program op env erase_type r t) := by
  unfold usercode_program
  split
  · rename_i hf
    simp only
    refine emits_step _ _ (Call.program_user_code r.address) _ (by simp [allowed, hf]) ?_
    split
    · exact cleanup_allowed _ _ _ _ _ _ (Or.inl hf)
    · refine emits_step _ _ Call.wait_not_busy _ (by simp [allowed]) ?_
      split
      · exact cleanup_allowed _ _ _ _ _ _ (Or.inl hf)
      · exact emits_refl _ _ _
  · exact emits_refl _ _ _

theorem usercode_verify_allowed (op : Nat) (env : Env) (erase_type : Nat) (r : Record)
    (tag : Bool) (t : Trace) :
    emits (allowed op erase_type tag r) t (usercode_verify op env r t) := by
  unfold usercode_verify
  split
  · rename_i hv
    simp only
    refine emits_step _ _ (Call.verify_user_code r.address) _ (by simp [allowed, hv]) ?_
    split
    · exact safe_allowed _ _ _ _ _ _
    · exact emits_refl _ _ _
  · exact emits_refl _ _ _

theorem section_end_allowed (op : Nat) (env : Env) (erase_type : Nat) (r : Record)
    (tag : Bool) (t : Trace) (hs : r.sect = Section.END) :
    emits (allowed op erase_type tag r) t (section_end op env t) := by
  unfold section_end
  refine emits_step _ _ Call.program_done _ (by simp [allowed, hs]) ?_
  split
  · simp only
    refine emits_step _ _ Call.wait_not_busy _ (by simp [allowed]) ?_
    split
    · split
      · refine emits_step _ _ Call.refresh _ (by simp [allowed]) ?_
        split
        · exact emits_step _ _ Call.wait_not_busy _ (by simp [allowed]) (emits_refl _ _ _)
        · exact emits_refl _ _ _
      · exact emits_refl _ _ _
    · exact emits_refl _ _ _
  · exact emits_refl _ _ _

/-- Every call issued for a record is one its `case` can issue. -/
theorem dispatch_allowed (P op : Nat) (env : Env) (erase_type : Nat) (r : Record)
    (tag : Bool) (t : Trace) :
    emits (allowed op erase_type tag r) t (dispatch P op env erase_type r tag t) := by
  unfold dispatch
  split
  · exact emits_refl _ _ _
  · exact and_then_emits _ _ _ _ (fuse_map_program_allowed _ _ _ _ _ _ _)
      (fun _ => fuse_map_verify_allowed _ _ _ _ _ _ _)
  · split
    · exact and_then_emits _ _ _ _ (arch_program_allowed _ _ _ _ _ _)
        (fun _ => arch_verify_allowed _ _ _ _ _ _)
    · exact emits_refl _ _ _
  · exact and_then_emits _ _ _ _ (usercode_program_allowed _ _ _ _ _ _)
      (fun _ => usercode_verify_allowed _ _ _ _ _ _)
  · rename_i h
    exact section_end_allowed _ _ _ _ _ _ h
  · exact emits_refl _ _ _
  · exact emits_refl _ _ _
  · exact emits_refl _ _ _
  · exact emits_refl _ _ _
  · exact emits_refl _ _ _
  · rename_i k h
    exact cleanup_allowed _ _ _ _ _ _ (Or.inr ⟨k, h⟩)

/-- The calls of the loop all satisfy `Q` when every call a `case` can issue does and
the calls of unsafe-abort do. -/
theorem do_work_loop_emits (P op : Nat) (env : Env) (erase_type : Nat) (Q : Call → Prop)
    (hQ : ∀ tag r c, allowed op erase_type tag r c → Q c)
    (hab : ∀ c ∈ unsafe_abort_calls erase_type, Q c) :
    ∀ (stream : List (Option Record)) (tag : Bool) (t : Trace) (n : Nat),
      ∃ ext, (do_work_loop P op env erase_type stream tag t n).trace = t ++ ext
        ∧ ∀ c ∈ ext, Q c := by
  intro stream
  induction stream with
  | nil => intro tag t n; exact ⟨[], by simp [do_work_loop], by simp⟩
  | cons x rest ih =>
    intro tag t n
    cases x with
    | none =>
      exact ⟨unsafe_abort_calls erase_type, by simp [do_work_loop, abort_and_clean_up_eq], hab⟩
    | some r =>
      obtain ⟨e1, h1, q1⟩ := dispatch_allowed P op env erase_type r tag t
      rw [do_work_loop_some]
      by_cases hd : (dispatch P op env erase_type r tag t).1 = Flow.next
      · obtain ⟨e2, h2, q2⟩ := ih (latch tag r) (dispatch P op env erase_type r tag t).2 (n + 1)
        refine ⟨e1 ++ e2, ?_, ?_⟩
        · simp only [hd]
          rw [h2, h1, List.append_assoc]
        · intro c hc
          rcases List.mem_append.1 hc with h | h
          · exact hQ _ _ _ (q1 c h)
          · exact q2 c h
      · refine ⟨e1, ?_, fun c hc => hQ _ _ _ (q1 c hc)⟩
        split
        · rename_i h; exact absurd h hd
        · exact h1

/-- The calls of a whole run all satisfy `Q` when the set-up calls, the calls a
`case` can issue and the calls of unsafe-abort do. -/
theorem do_work_emits (P : Nat) (k : EraseBits) (op : Nat) (env : Env) (Q : Call → Prop)
    (hQ : ∀ tag r c, allowed op (compute_erase_type k op) tag r c → Q c)
    (hab : ∀ c ∈ unsafe_abort_calls (compute_erase_type k op), Q c)
    (h1 : Q Call.check_device_id_quick) (h2 : Q Call.enable_offline_configuration)
    (h3 : Q Call.wait_not_busy)
    (h4 : op &&& DO_ERASE ≠ 0 → Q (Call.erase_flash (compute_erase_type k op)))
    (stream : List (Option Record)) :
    ∀ c ∈ (do_work P k op env stream).trace, Q c := by
  have hl := do_work_loop_emits P op env (compute_erase_type k op) Q hQ hab
  cases stream with
  | nil => simp [do_work]
  | cons x s =>
    cases x with
    | none => simp [do_work]
    | some lead =>
      simp only [do_work]
      split
      · intro c hc; simp at hc; subst hc; exact h1
      · split
        · intro c hc; simp at hc; rcases hc with h | h <;> subst h <;> assumption
        · split
          · intro c hc; simp at hc; rcases hc with h | h | h <;> subst h <;> assumption
          · split
            · rename_i he
              split
              · intro c hc
                simp at hc
                rcases hc with h | h | h | h <;> subst h
                · exact h1
                · exact h2
                · exact h3
                · exact h4 he
              · split
                · intro c hc
                  simp at hc
                  rcases hc with h | h | h | h | h <;> subst h
                  · exact h1
                  · exact h2
                  · exact h3
                  · exact h4 he
                  · exact h3
                · obtain ⟨ext, hx, hq⟩ := hl s false _ 1
                  rw [hx]
                  intro c hc
                  simp at hc
                  rcases hc with h | h | h | h | h | h
                  · subst h; exact h1
                  · subst h; exact h2
                  · subst h; exact h3
                  · subst h; exact h4 he
                  · subst h; exact h3
                  · exact hq c h
            · obtain ⟨ext, hx, hq⟩ := hl s false _ 1
              rw [hx]
              intro c hc
              simp at hc
              rcases hc with h | h | h | h
              · subst h; exact h1
              · subst h; exact h2
              · subst h; exact h3
              · exact hq c h

theorem compute_erase_type_eq (k : EraseBits) (op : Nat) :
    compute_erase_type k op
      = k.ERASE_FEATURE_ROW ||| k.ERASE_CONFIGURATION ||| k.ERASE_USER_FLASH := by
  simp [compute_erase_type, DO_FEATURE, DO_USERFLASH]

theorem program_pages_flow (P : Nat) (env : Env) (erase_type : Nat) (data : List Nat) :
    ∀ (fuel i : Nat) (t : Trace), phase_flow (program_pages P env erase_type data fuel i t).1 := by
  intro fuel
  induction fuel with
  | zero => intro i t; simp [program_pages, phase_flow]
  | succ f ih =>
    intro i t
    unfold program_pages
    split
    · simp only
      split
      · simp [abort_and_clean_up, phase_flow]
      · split
        · simp [abort_and_clean_up, phase_flow]
        · exact ih _ _
    · simp [phase_flow]

theorem verify_blocks_flow (P : Nat) (env : Env) (data : List Nat) :
    ∀ (fuel i : Nat) (t : Trace), phase_flow (verify_blocks P env data fuel i t).1 := by
  intro fuel
  induction fuel with
  | zero => intro i t; simp [verify_blocks, phase_flow]
  | succ f ih =>
    intro i t
    unfold verify_blocks
    by_cases hi : i < data.length
    · simp only [hi, if_true, block_len_eq]
      split
      · simp [just_abort, phase_flow]
      · exact ih _ _
    · simp [hi, phase_flow]

theorem fuse_map_program_flow (P op : Nat) (env : Env) (erase_type : Nat) (r : Record)
    (tag : Bool) (t : Trace) : phase_flow (fuse_map_program P op env erase_type r tag t).1 := by
  unfold fuse_map_program
  split
  · split
    · simp [abort_and_clean_up, phase_flow]
    · split
      · simp [abort_and_clean_up, phase_flow]
      · split
        · simp only
          split
          · simp [abort_and_clean_up, phase_flow]
          · exact program_pages_flow _ _ _ _ _ _ _
        · simp [phase_flow]
  · simp [phase_flow]

theorem fuse_map_verify_flow (P op : Nat) (env : Env) (r : Record)
    (tag : Bool) (t : Trace) : phase_flow (fuse_map_verify P op env r tag t).1 := by
  unfold fuse_map_verify
  split
  · split
    · simp [just_abort, phase_flow]
    · split
      · simp [just_abort, phase_flow]
      · simp only
        split
        · simp [just_abort, phase_flow]
        · exact verify_blocks_flow _ _ _ _ _ _
  · simp [phase_flow]

theorem arch_program_flow (op : Nat) (env : Env) (erase_type : Nat) (r : Record)
    (t : Trace) : phase_flow (arch_program op env erase_type r t).1 := by
  unfold arch_program
  simp only
  split_ifs <;> simp [abort_and_clean_up, phase_flow]

theorem arch_verify_flow (op : Nat) (env : Env) (r : Record)
    (t : Trace) : phase_flow (arch_verify op env r t).1 := by
  unfold arch_verify
  simp only
  split_ifs <;> simp [just_abort, phase_flow]

theorem usercode_program_flow (op : Nat) (env : Env) (erase_type : Nat) (r : Record)
    (t : Trace) : phase_flow (usercode_program op env erase_type r t).1 := by
  unfold usercode_program
  simp only
  split_ifs <;> simp [abort_and_clean_up, phase_flow]

theorem usercode_verify_flow (op : Nat) (env : Env) (r : Record)
    (t : Trace) : phase_flow (usercode_verify op env r t).1 := by
  unfold usercode_verify
  simp only
  split_ifs <;> simp [just_abort, phase_flow]

theorem and_then_flow (a : Flow × Trace) (b : Trace → Flow × Trace)
    (ha : phase_flow a.1) (hb : ∀ t, phase_flow (b t).1) : phase_flow (and_then a b).1 := by
  unfold and_then
  split
  · exact hb _
  · exact ha

theorem section_end_flow (op : Nat) (env : Env) (t : Trace) :
    (section_end op env t).1 = Flow.ret := by
  unfold section_end
  simp only
  split_ifs <;> rfl

/-- The `switch` on a record that is not an End record never returns from `do_work`. -/
theorem dispatch_flow (P op : Nat) (env : Env) (erase_type : Nat) (r : Record)
    (tag : Bool) (t : Trace) (hs : r.sect ≠ Section.END) :
    phase_flow (dispatch P op env erase_type r tag t).1 := by
  unfold dispatch
  split
  · simp [phase_flow]
  · exact and_then_flow _ _ (fuse_map_program_flow _ _ _ _ _ _ _)
      (fun _ => fuse_map_verify_flow _ _ _ _ _ _)
  · split
    · exact and_then_flow _ _ (arch_program_flow _ _ _ _ _) (fun _ => arch_verify_flow _ _ _ _)
    · simp [phase_flow]
  · exact and_then_flow _ _ (usercode_program_flow _ _ _ _ _)
      (fun _ => usercode_verify_flow _ _ _ _)
  · rename_i h; exact absurd h hs
  · simp [phase_flow]
  · simp [phase_flow]
  · simp [phase_flow]
  · simp [phase_flow]
  · simp [phase_flow]
  · simp [abort_and_clean_up, phase_flow]

theorem section_end_commits (op : Nat) (env : Env) (t : Trace) :
    ∃ ext, (section_end op env t).2 = t ++ Call.program_done :: ext := by
  unfold section_end
  simp only
  split_ifs
  · exact ⟨[Call.wait_not_busy, Call.refresh, Call.wait_not_busy], by simp⟩
  · exact ⟨[Call.wait_not_busy, Call.refresh], by simp⟩
  · exact ⟨[Call.wait_not_busy], by simp⟩
  · exact ⟨[Call.wait_not_busy], by simp⟩
  · exact ⟨[], by simp⟩

/-- The loop returns from `do_work` exactly when it has issued a commit, that is when
it has dispatched an End record; otherwise it ends with `exit(1)` or is not over. -/
theorem do_work_loop_flow (P op : Nat) (env : Env) (erase_type : Nat) :
    ∀ (stream : List (Option Record)) (tag : Bool) (t : Trace) (n : Nat),
      ∃ ext, (do_work_loop P op env erase_type stream tag t n).trace = t ++ ext
        ∧ ((do_work_loop P op env erase_type stream tag t n).flow = Flow.ret
            ↔ Call.program_done ∈ ext)
        ∧ ((do_work_loop P op env erase_type stream tag t n).flow = Flow.ret
            ∨ (do_work_loop P op env erase_type stream tag t n).flow = Flow.exit 1
            ∨ (do_work_loop P op env erase_type stream tag t n).flow = Flow.stuck) := by
  intro stream
  induction stream with
  | nil => intro tag t n; exact ⟨[], by simp [do_work_loop]⟩
  | cons x rest ih =>
    intro tag t n
    cases x with
    | none =>
      exact ⟨unsafe_abort_calls erase_type,
        by simp [do_work_loop, abort_and_clean_up_eq, unsafe_abort_calls]⟩
    | some r =>
      by_cases hs : r.sect = Section.END
      · obtain ⟨ext, he⟩ := section_end_commits op env t
        have hd : dispatch P op env erase_type r tag t
            = (Flow.ret, t ++ Call.program_done :: ext) := by
          rw [Prod.ext_iff]
          simp only [dispatch, hs]
          exact ⟨section_end_flow op env t, he⟩
        rw [do_work_loop_ret P op env erase_type r rest tag t n _ hd]
        exact ⟨Call.program_done :: ext, by simp⟩
      · obtain ⟨e1, h1, q1⟩ := dispatch_allowed P op env erase_type r tag t
        have hno : Call.program_done ∉ e1 := fun hm => hs (q1 _ hm)
        have hfl := dispatch_flow P op env erase_type r tag t hs
        rw [do_work_loop_some]
        rcases hfl with hf | hf | hf
        · obtain ⟨e2, h2, hiff, hcases⟩ :=
            ih (latch tag r) (dispatch P op env erase_type r tag t).2 (n + 1)
          refine ⟨e1 ++ e2, ?_, ?_, ?_⟩
          · simp only [hf]
            rw [h2, h1, List.append_assoc]
          · simp only [hf]
            rw [hiff, List.mem_append]
            constructor
            · exact Or.inr
            · rintro (h | h)
              · exact absurd h hno
              · exact h
          · simp only [hf]
            exact hcases
        · refine ⟨e1, ?_, ?_, ?_⟩
          · simp only [hf]; exact h1
          · simp only [hf]
            constructor
            · intro h; cases h
            · intro h; exact absurd h hno
          · simp only [hf]; exact Or.inr (Or.inl trivial)
        · refine ⟨e1, ?_, ?_, ?_⟩
          · simp only [hf]; exact h1
          · simp only [hf]
            constructor
            · intro h; cases h
            · intro h; exact absurd h hno
          · simp only [hf]; exact Or.inr (Or.inr trivial)

/-- The set-up of `do_work` issues identity-check, enter-configuration-mode, busy-wait
and erase calls only; after it the loop runs, or the run has ended with `exit(1)`. -/
theorem do_work_setup_calls (P : Nat) (k : EraseBits) (op : Nat) (env : Env) (lead : Record) :
    ∃ t0 : Trace, Call.program_done ∉ t0
      ∧ ((∀ s, do_work P k op env (some lead :: s)
            = do_work_loop P op env (compute_erase_type k op) s false t0 1)
        ∨ (∀ s, do_work P k op env (some lead :: s) = ⟨Flow.exit 1, t0, 1⟩)) := by
  by_cases h1 : env [] Call.check_device_id_quick ≠ 1
  · exact ⟨[Call.check_device_id_quick], by simp, Or.inr fun s => by simp [do_work, h1]⟩
  by_cases h2 : env [Call.check_device_id_quick] Call.enable_offline_configuration ≠ 1
  · exact ⟨[Call.check_device_id_quick, Call.enable_offline_configuration], by simp,
      Or.inr fun s => by simp [do_work, h1, h2]⟩
  by_cases h3 : env [Call.check_device_id_quick, Call.enable_offline_configuration]
      Call.wait_not_busy ≠ 1
  · exact ⟨[Call.check_device_id_quick, Call.enable_offline_configuration,
      Call.wait_not_busy], by simp, Or.inr fun s => by simp [do_work, h1, h2, h3]⟩
  by_cases h4 : op &&& DO_ERASE ≠ 0
  · by_cases h5 : env [Call.check_device_id_quick, Call.enable_offline_configuration,
        Call.wait_not_busy] (Call.erase_flash (compute_erase_type k op)) ≠ 1
    · exact ⟨[Call.check_device_id_quick, Call.enable_offline_configuration,
        Call.wait_not_busy, Call.erase_flash (compute_erase_type k op)], by simp,
        Or.inr fun s => by simp [do_work, h1, h2, h3, h4, h5]⟩
    by_cases h6 : env [Call.check_device_id_quick, Call.enable_offline_configuration,
        Call.wait_not_busy, Call.erase_flash (compute_erase_type k op)]
        Call.wait_not_busy ≠ 1
    · exact ⟨[Call.check_device_id_quick, Call.enable_offline_configuration,
        Call.wait_not_busy, Call.erase_flash (compute_erase_type k op), Call.wait_not_busy],
        by simp, Or.inr fun s => by simp [do_work, h1, h2, h3, h4, h5, h6]⟩
    · exact ⟨[Call.check_device_id_quick, Call.enable_offline_configuration,
        Call.wait_not_busy, Call.erase_flash (compute_erase_type k op), Call.wait_not_busy],
        by simp, Or.inl fun s => by simp [do_work, h1, h2, h3, h4, h5, h6]⟩
  · exact ⟨[Call.check_device_id_quick, Call.enable_offline_configuration,
      Call.wait_not_busy], by simp, Or.inl fun s => by simp [do_work, h1, h2, h3, h4]⟩

theorem exit_status_zero_iff (run : Run)
    (h : run.flow = Flow.ret ∨ run.flow = Flow.exit 1 ∨ run.flow = Flow.stuck) :
    exit_status run = some 0 ↔ run.flow = Flow.ret := by
  rcases h with h | h | h <;> simp [exit_status, h]

theorem mask_of_clear :
    ∀ e f v r F u : Bool,
      clear_bit (mask_of e f v r F u) DO_ERASE = mask_of true f v r F u
      ∧ clear_bit (mask_of e f v r F u) DO_FLASH = mask_of e true v r F u
      ∧ clear_bit (mask_of e f v r F u) DO_VERIFY = mask_of e f true r F u
      ∧ clear_bit (mask_of e f v r F u) DO_REFRESH = mask_of e f v true F u
      ∧ clear_bit (mask_of e f v r F u) DO_FEATURE = mask_of e f v r true u
      ∧ clear_bit (mask_of e f v r F u) DO_USERFLASH = mask_of e f v r F true := by
  decide

theorem expected_op_step (seen : List (List Char)) :
    clear_bit (expected_op seen) DO_ERASE = expected_op (seen ++ [flag_e])
      ∧ clear_bit (expected_op seen) DO_FLASH = expected_op (seen ++ [flag_f])
      ∧ clear_bit (expected_op seen) DO_VERIFY = expected_op (seen ++ [flag_v])
      ∧ clear_bit (expected_op seen) DO_REFRESH = expected_op (seen ++ [flag_r])
      ∧ clear_bit (expected_op seen) DO_FEATURE = expected_op (seen ++ [flag_F])
      ∧ clear_bit (expected_op seen) DO_USERFLASH = expected_op (seen ++ [flag_u]) := by
  have h := mask_of_clear (decide (flag_e ∈ seen)) (decide (flag_f ∈ seen))
    (decide (flag_v ∈ seen)) (decide (flag_r ∈ seen)) (decide (flag_F ∈ seen))
    (decide (flag_u ∈ seen))
  obtain ⟨h1, h2, h3, h4, h5, h6⟩ := h
  have ne : flag_e ≠ flag_f ∧ flag_e ≠ flag_v ∧ flag_e ≠ flag_r ∧ flag_e ≠ flag_F
      ∧ flag_e ≠ flag_u ∧ flag_f ≠ flag_v ∧ flag_f ≠ flag_r ∧ flag_f ≠ flag_F
      ∧ flag_f ≠ flag_u ∧ flag_v ≠ flag_r ∧ flag_v ≠ flag_F ∧ flag_v ≠ flag_u
      ∧ flag_r ≠ flag_F ∧ flag_r ≠ flag_u ∧ flag_F ≠ flag_u := by decide
  obtain ⟨n1, n2, n3, n4, n5, n6, n7, n8, n9, n10, n11, n12, n13, n14, n15⟩ := ne
  refine ⟨?_, ?_, ?_, ?_, ?_, ?_⟩
  · rw [expected_op, h1, expected_op]
    simp [List.mem_append, n1.symm, n2.symm, n3.symm, n4.symm, n5.symm]
  · rw [expected_op, h2, expected_op]
    simp [List.mem_append, n1, n6.symm, n7.symm, n8.symm, n9.symm]
  · rw [expected_op, h3, expected_op]
    simp [List.mem_append, n2, n6, n10.symm, n11.symm, n12.symm]
  · rw [expected_op, h4, expected_op]
    simp [List.mem_append, n3, n7, n10, n13.symm, n14.symm]
  · rw [expected_op, h5, expected_op]
    simp [List.mem_append, n4, n8, n11, n13, n15.symm]
  · rw [expected_op, h6, expected_op]
    simp [List.mem_append, n5, n9, n12, n14, n15]

theorem parse_options_flags (host : Host) (path : List Char) (hpath : ch path 0 ≠ '-')
    (d : Option (List Char)) (m : Mode) (i : Int) (flags : List (List Char)) :
    ∀ seen : List (List Char), (∀ a ∈ flags, is_mask_flag a) →
      parse_options host (flags ++ [path]) ⟨d, m, i, expected_op seen⟩
        = some (⟨d, m, i, expected_op (seen ++ flags)⟩, [path]) := by
  induction flags with
  | nil =>
    intro seen _
    simp [parse_options, hpath]
  | cons a fs ih =>
    intro seen h
    have hfs : ∀ b ∈ fs, is_mask_flag b := fun b hb => h b (List.mem_cons_of_mem _ hb)
    have hstep := expected_op_step seen
    have happ : ∀ x : List Char, seen ++ x :: fs = (seen ++ [x]) ++ fs := by
      intro x; simp
    rcases h a (List.mem_cons_self _ _) with ha | ha | ha | ha | ha | ha <;> subst ha
    · rw [happ, ← ih _ hfs, ← hstep.1]
      rw [parse_options.eq_def]
      simp [ch, flag_e]
    · rw [happ, ← ih _ hfs, ← hstep.2.1]
      rw [parse_options.eq_def]
      simp [ch, flag_f]
    · rw [happ, ← ih _ hfs, ← hstep.2.2.1]
      rw [parse_options.eq_def]
      simp [ch, flag_v]
    · rw [happ, ← ih _ hfs, ← hstep.2.2.2.1]
      rw [parse_options.eq_def]
      simp [ch, flag_r]
    · rw [happ, ← ih _ hfs, ← hstep.2.2.2.2.1]
      rw [parse_options.eq_def]
      simp [ch, flag_F]
    · rw [happ, ← ih _ hfs, ← hstep.2.2.2.2.2]
      rw [parse_options.eq_def]
      simp [ch, flag_u]

theorem mask_of_bits :
    ∀ e f v r F u : Bool,
      mask_of e f v r F u ≤ 63
      ∧ (mask_of e f v r F u &&& DO_ERASE = 0 ↔ e = true)
      ∧ (mask_of e f v r F u &&& DO_FLASH = 0 ↔ f = true)
      ∧ (mask_of e f v r F u &&& DO_VERIFY = 0 ↔ v = true)
      ∧ (mask_of e f v r F u &&& DO_REFRESH = 0 ↔ r = true)
      ∧ (mask_of e f v r F u &&& DO_FEATURE = 0 ↔ F = true)
      ∧ (mask_of e f v r F u &&& DO_USERFLASH = 0 ↔ u = true) := by
  decide

theorem succeeds_append (env : Env) (l1 : List Call) :
    ∀ (t : Trace) (l2 : List Call),
      succeeds env t (l1 ++ l2) ↔ succeeds env t l1 ∧ succeeds env (t ++ l1) l2 := by
  induction l1 with
  | nil => intro t l2; simp [succeeds]
  | cons c l ih =>
    intro t l2
    have e : t ++ c :: l = t ++ [c] ++ l := by simp
    rw [e]
    show (env t c = 1 ∧ succeeds env (t ++ [c]) (l ++ l2))
      ↔ (env t c = 1 ∧ succeeds env (t ++ [c]) l) ∧ succeeds env (t ++ [c] ++ l) l2
    rw [ih, and_assoc]

theorem replay_success (env : Env) (tail : List Call) (l : List Call) :
    ∀ t, succeeds env t l → replay env tail t l = (Flow.next, t ++ l) := by
  induction l with
  | nil => intro t _; simp [replay]
  | cons c l ih =>
    intro t h
    simp only [succeeds] at h
    simp [replay, h.1, ih _ h.2]

theorem replay_failure (env : Env) (tail : List Call) (a : List Call) (c : Call)
    (b : List Call) :
    ∀ t, succeeds env t a → env (t ++ a) c ≠ 1 →
      replay env tail t (a ++ c :: b) = (Flow.exit 1, t ++ a ++ [c] ++ tail) := by
  induction a with
  | nil => intro t _ hc; simp at hc; simp [replay, hc]
  | cons x a ih =>
    intro t h hc
    simp only [succeeds] at h
    have hc1 : env (t ++ [x] ++ a) c ≠ 1 := by simpa using hc
    simp [replay, h.1, ih _ h.2 hc1]

theorem replay_append (env : Env) (tail : List Call) (l1 : List Call) :
    ∀ (t : Trace) (l2 : List Call), succeeds env t l1 →
      replay env tail t (l1 ++ l2) = replay env tail (t ++ l1) l2 := by
  induction l1 with
  | nil => intro t l2 _; simp
  | cons c l ih =>
    intro t l2 h
    simp only [succeeds] at h
    simp [replay, h.1, ih _ _ h.2]

theorem program_pages_replay (P : Nat) (env : Env) (erase_type : Nat) (data : List Nat)
    (hP : 0 < P) :
    ∀ fuel i t, iterations (data.length - i) P < fuel →
      program_pages P env erase_type data fuel i t =
        replay env (unsafe_abort_calls erase_type) t
          ((List.range (iterations (data.length - i) P)).flatMap
            (fun k => [Call.program_configuration_flash ((data.drop (i + k * P)).take P) P,
              Call.wait_not_busy])) := by
  intro fuel
  induction fuel with
  | zero => intro i t h; omega
  | succ f ih =>
    intro i t h
    unfold program_pages
    by_cases hi : i < data.length
    · have hstep := iterations_step (data.length - i) P hP (by omega)
      have hsub : data.length - i - P = data.length - (i + P) := by omega
      rw [hsub] at hstep
      have hlist : (List.range (iterations (data.length - (i + P)) P + 1)).flatMap
            (fun k => [Call.program_configuration_flash ((data.drop (i + k * P)).take P) P,
              Call.wait_not_busy])
          = Call.program_configuration_flash ((data.drop i).take P) P :: Call.wait_not_busy ::
            (List.range (iterations (data.length - (i + P)) P)).flatMap
              (fun k => [Call.program_configuration_flash
                ((data.drop (i + P + k * P)).take P) P, Call.wait_not_busy]) := by
        rw [List.range_succ_eq_map, List.flatMap_cons, List.flatMap_map]
        simp only [Nat.zero_mul, Nat.add_zero, List.cons_append, List.nil_append]
        congr 2
        apply List.flatMap_congr
        intro k _
        simp only [Nat.succ_eq_add_one, Nat.add_mul, Nat.one_mul]
        have e : i + P + k * P = i + (k * P + P) := by omega
        rw [e]
      rw [hstep, hlist, replay, replay]
      simp only [hi, if_true, abort_and_clean_up_eq]
      split_ifs with h1 h2
      · rfl
      · rfl
      · exact ih (i + P) _ (by omega)
    · have h0 : data.length - i = 0 := by omega
      simp [hi, h0, iterations_zero _ hP, replay]

theorem verify_blocks_replay (P : Nat) (env : Env) (data : List Nat) (hP : 0 < P) :
    ∀ fuel i t, iterations (data.length - i) (P * 8) < fuel →
      verify_blocks P env data fuel i t =
        replay env [Call.refresh] t
          ((List.range (iterations (data.length - i) (P * 8))).map
            (fun k => Call.verify_configuration_flash
              ((data.drop (i + k * (P * 8))).take (min (data.length - (i + k * (P * 8))) (P * 8)))
              (min (data.length - (i + k * (P * 8))) (P * 8)))) := by
  have hD : 0 < P * 8 := by omega
  intro fuel
  induction fuel with
  | zero => intro i t h; omega
  | succ f ih =>
    intro i t h
    unfold verify_blocks
    by_cases hi : i < data.length
    · have hstep := iterations_step (data.length - i) (P * 8) hD (by omega)
      have hsub : data.length - i - P * 8 = data.length - (i + P * 8) := by omega
      rw [hsub] at hstep
      have hrest : (List.range (iterations (data.length - (i + P * 8)) (P * 8))).map
            ((fun k => Call.verify_configuration_flash
              ((data.drop (i + k * (P * 8))).take (min (data.length - (i + k * (P * 8))) (P * 8)))
              (min (data.length - (i + k * (P * 8))) (P * 8))) ∘ Nat.succ)
          = (List.range (iterations (data.length - (i + P * 8)) (P * 8))).map
            (fun k => Call.verify_configuration_flash
              ((data.drop (i + P * 8 + k * (P * 8))).take
                (min (data.length - (i + P * 8 + k * (P * 8))) (P * 8)))
              (min (data.length - (i + P * 8 + k * (P * 8))) (P * 8))) := by
        apply List.map_congr_left
        intro k _
        simp only [Function.comp, Nat.succ_eq_add_one, Nat.add_mul, Nat.one_mul]
        have e : i + P * 8 + k * (P * 8) = i + (k * (P * 8) + P * 8) := by omega
        rw [e]
      rw [hstep, List.range_succ_eq_map]
      simp only [hi, if_true, block_len_eq, List.map_cons, List.map_map, Nat.zero_mul,
        Nat.add_zero, replay, hrest]
      simp only [just_abort_eq]
      split_ifs with h1
      · rfl
      · exact ih (i + P * 8) _ (by omega)
    · have h0 : data.length - i = 0 := by omega
      simp [hi, h0, iterations_zero _ hD, replay]

theorem fuse_map_program_replay (P op : Nat) (env : Env) (erase_type : Nat) (r : Record)
    (tag : Bool) (t : Trace) (hP : 0 < P)
    (ha : r.address % P = 0) (hl : r.data_len % P = 0) :
    fuse_map_program P op env erase_type r tag t =
      replay env (unsafe_abort_calls erase_type) t
        (if op &&& DO_FLASH ≠ 0 ∧ all_zero r.data = false then
          Call.set_configuration_flash_address (r.address / P) tag ::
            (List.range (r.data_len / P)).flatMap (page_calls P r.data)
        else []) := by
  have ha1 : ¬ (r.address / P) * P ≠ r.address := by rw [div_mul_ne_iff]; simpa using ha
  have hl1 : ¬ (r.data_len / P) * P ≠ r.data_len := by rw [div_mul_ne_iff]; simpa using hl
  unfold fuse_map_program
  by_cases hf : op &&& DO_FLASH ≠ 0
  · by_cases hz : all_zero r.data = true
    · simp [hf, ha1, hl1, hz, replay]
    · have hz1 : all_zero r.data = false := by simpa using hz
      have hpages := program_pages_replay P env erase_type r.data hP (r.data_len + 1) 0
        (t ++ [Call.set_configuration_flash_address (r.address / P) tag])
        (by have := iterations_le r.data.length P hP
            simp only [Nat.sub_zero, Record.data_len]; omega)
      have hit : iterations r.data.length P = r.data_len / P := iterations_of_mod _ _ hP hl
      simp only [Nat.sub_zero, Nat.zero_add, hit] at hpages
      have hc : op &&& DO_FLASH ≠ 0 ∧ all_zero r.data = false := ⟨hf, hz1⟩
      have hnz : ¬ all_zero r.data = true := hz
      rw [if_pos hf, if_neg ha1, if_neg hl1, if_pos hnz, if_pos hc, replay]
      simp only [abort_and_clean_up_eq]
      split_ifs with h1
      · rfl
      · rw [hpages]
        rfl
  · simp [hf, replay]

theorem fuse_map_verify_replay (P op : Nat) (env : Env) (r : Record)
    (tag : Bool) (t : Trace) (hP : 0 < P)
    (ha : r.address % P = 0) (hl : r.data_len % P = 0) :
    fuse_map_verify P op env r tag t =
      replay env [Call.refresh] t
        (if op &&& DO_VERIFY ≠ 0 then
          Call.set_configuration_flash_address (r.address / P) tag ::
            (List.range (iterations r.data_len (P * 8))).map (chunk_call P r.data)
        else []) := by
  have ha1 : ¬ (r.address / P) * P ≠ r.address := by rw [div_mul_ne_iff]; simpa using ha
  have hl1 : ¬ (r.data_len / P) * P ≠ r.data_len := by rw [div_mul_ne_iff]; simpa using hl
  unfold fuse_map_verify
  by_cases hv : op &&& DO_VERIFY ≠ 0
  · have hD : 0 < P * 8 := by omega
    have hblocks := verify_blocks_replay P env r.data hP (r.data_len + 1) 0
      (t ++ [Call.set_configuration_flash_address (r.address / P) tag])
      (by have := iterations_le r.data.length (P * 8) hD
          simp only [Nat.sub_zero, Record.data_len]; omega)
    simp only [Nat.sub_zero, Nat.zero_add] at hblocks
    rw [if_pos hv, if_neg ha1, if_neg hl1, if_pos hv, replay]
    simp only [just_abort_eq]
    split_ifs with h1
    · rfl
    · rw [hblocks]
      rfl
  · simp [hv, replay]

theorem arch_program_replay (op : Nat) (env : Env) (erase_type : Nat) (r : Record)
    (t : Trace) (hlen : r.data_len = 10) :
    arch_program op env erase_type r t =
      replay env (unsafe_abort_calls erase_type) t
        (if op &&& DO_FLASH ≠ 0 then
          [Call.program_feature_row (r.data.take 8), Call.wait_not_busy,
            Call.program_feature_bits ((r.data.drop 8).take 2), Call.wait_not_busy]
        else []) := by
  unfold arch_program
  by_cases hf : op &&& DO_FLASH ≠ 0
  · rw [if_pos hf, if_neg (by simp [hlen]), if_pos hf, replay, replay, replay, replay, replay]
    simp only [abort_and_clean_up_eq]
  · simp [hf, replay]

theorem arch_verify_replay (op : Nat) (env : Env) (r : Record)
    (t : Trace) (hlen : r.data_len = 10) :
    arch_verify op env r t =
      replay env [Call.refresh] t
        (if op &&& DO_VERIFY ≠ 0 then
          [Call.verify_feature_row (r.data.take 8),
            Call.verify_feature_bits ((r.data.drop 8).take 2)]
        else []) := by
  unfold arch_verify
  by_cases hv : op &&& DO_VERIFY ≠ 0
  · rw [if_pos hv, if_neg (by simp [hlen]), if_pos hv, replay, replay, replay]
    simp only [just_abort_eq]
  · simp [hv, replay]

theorem usercode_program_replay (op : Nat) (env : Env) (erase_type : Nat) (r : Record)
    (t : Trace) :
    usercode_program op env erase_type r t =
      replay env (unsafe_abort_calls erase_type) t
        (if op &&& DO_FLASH ≠ 0 then [Call.program_user_code r.address, Call.wait_not_busy]
        else []) := by
  unfold usercode_program
  by_cases hf : op &&& DO_FLASH ≠ 0
  · rw [if_pos hf, if_pos hf, replay, replay, replay]
    simp only [abort_and_clean_up_eq]
  · simp [hf, replay]

theorem usercode_verify_replay (op : Nat) (env : Env) (r : Record) (t : Trace) :
    usercode_verify op env r t =
      replay env [Call.refresh] t
        (if op &&& DO_VERIFY ≠ 0 then [Call.verify_user_code r.address] else []) := by
  unfold usercode_verify
  by_cases hv : op &&& DO_VERIFY ≠ 0
  · rw [if_pos hv, if_pos hv, replay, replay]
    simp only [just_abort_eq]
  · simp [hv, replay]

/-- The program phase of a record that passes the tests of its `case` issues its
expected calls in order and, at the first that fails, runs unsafe-abort. -/
theorem program_phase_replay (P op : Nat) (env : Env) (erase_type : Nat) (r : Record)
    (tag : Bool) (t : Trace) (hP : 0 < P) (hw : well_formed P r) :
    program_phase P op env erase_type r tag t =
      replay env (unsafe_abort_calls erase_type) t (expected_program_calls P op r tag) := by
  unfold program_phase expected_program_calls
  unfold well_formed at hw
  split
  · rename_i hs
    simp only [hs] at hw
    exact fuse_map_program_replay P op env erase_type r tag t hP hw.1 hw.2
  · rename_i hs
    simp only [hs] at hw
    by_cases hfeat : op &&& DO_FEATURE ≠ 0
    · rw [if_pos hfeat]
      simp only [hfeat, ne_eq, not_false_eq_true, true_and]
      exact arch_program_replay op env erase_type r t hw
    · simp [hfeat, replay]
  · exact usercode_program_replay op env erase_type r t
  · simp [replay]

/-- The verify phase of a record that passes the tests of its `case` issues its
expected calls in order and, at the first that fails, runs safe-abort. -/
theorem verify_phase_replay (P op : Nat) (env : Env) (r : Record)
    (tag : Bool) (t : Trace) (hP : 0 < P) (hw : well_formed P r) :
    verify_phase P op env r tag t =
      replay env [Call.refresh] t (expected_verify_calls P op r tag) := by
  unfold verify_phase expected_verify_calls
  unfold well_formed at hw
  split
  · rename_i hs
    simp only [hs] at hw
    exact fuse_map_verify_replay P op env r tag t hP hw.1 hw.2
  · rename_i hs
    simp only [hs] at hw
    by_cases hfeat : op &&& DO_FEATURE ≠ 0
    · rw [if_pos hfeat]
      simp only [hfeat, ne_eq, not_false_eq_true, true_and]
      exact arch_verify_replay op env r t hw
    · simp [hfeat, replay]
  · exact usercode_verify_replay op env r t
  · simp [replay]

theorem expected_program_calls_other (P op : Nat) (r : Record) (tag : Bool)
    (hk : ¬ (r.sect = Section.FUSE_MAP ∨ r.sect = Section.ARCH ∨ r.sect = Section.USERCODE)) :
    expected_program_calls P op r tag = [] := by
  unfold expected_program_calls
  split <;> simp_all

theorem expected_verify_calls_other (P op : Nat) (r : Record) (tag : Bool)
    (hk : ¬ (r.sect = Section.FUSE_MAP ∨ r.sect = Section.ARCH ∨ r.sect = Section.USERCODE)) :
    expected_verify_calls P op r tag = [] := by
  unfold expected_verify_calls
  split <;> simp_all

/-! ## The claims -/

/-- C5: for every erase mask and every outcome of the primitives, `abort_and_clean_up`
issues exactly erase(mask), busy-wait, refresh in that order and ends with
`exit(1)`; `just_abort` issues exactly one refresh, no erase, and ends with
`exit(1)`. -/
theorem recovery_routines (env : Env) (erase_type : Nat) (t : Trace) :
    abort_and_clean_up env erase_type t =
        (Flow.exit 1, t ++ [Call.erase_flash erase_type, Call.wait_not_busy, Call.refresh])
      ∧ just_abort env t = (Flow.exit 1, t ++ [Call.refresh])
      ∧ (∀ c ∈ [Call.refresh], Call.is_erase c = false) := by
  refine ⟨abort_and_clean_up_eq env erase_type t, just_abort_eq env t, ?_⟩
  intro c hc
  simp at hc
  subst hc
  rfl

/-- C6 (the code departs from it): with the FeatureRow bit of `op` cleared (`op = 47`,
flag `-F`) or the UserFlash bit cleared (`op = 31`, flag `-u`) the computed erase
mask still is all three regions: no region is dropped. -/
theorem erase_mask_not_narrowed (k : EraseBits) :
    compute_erase_type k 47 = k.ERASE_FEATURE_ROW ||| k.ERASE_CONFIGURATION ||| k.ERASE_USER_FLASH
      ∧ compute_erase_type k 31 =
          k.ERASE_FEATURE_ROW ||| k.ERASE_CONFIGURATION ||| k.ERASE_USER_FLASH := by
  constructor <;> simp [compute_erase_type, DO_FEATURE, DO_USERFLASH]

/-- C1: a FuseMap record whose address or length is not a multiple of the page size,
dispatched with Program or Verify requested, ends the run with `exit(1)`; the calls
issued for it contain no set-target-page, write-page or read-verify-range call. -/
theorem misaligned_fuse_map_no_page_call (P op : Nat) (env : Env) (erase_type : Nat)
    (r : Record) (rest : List (Option Record)) (tag : Bool) (t : Trace) (n : Nat)
    (_hP : 0 < P) (hs : r.sect = Section.FUSE_MAP)
    (hop : op &&& DO_FLASH ≠ 0 ∨ op &&& DO_VERIFY ≠ 0)
    (hmis : r.address % P ≠ 0 ∨ r.data_len % P ≠ 0) :
    ∃ ext, do_work_loop P op env erase_type (some r :: rest) tag t n
          = ⟨Flow.exit 1, t ++ ext, n + 1⟩
      ∧ (∀ c ∈ ext, c.is_set_page = false ∧ c.is_write_page = false
            ∧ c.is_verify_range = false)
      ∧ exit_status (do_work_loop P op env erase_type (some r :: rest) tag t n) = some 1 := by
  have key : ∃ ext, dispatch P op env erase_type r tag t = (Flow.exit 1, t ++ ext)
      ∧ (∀ c ∈ ext, c.is_set_page = false ∧ c.is_write_page = false
            ∧ c.is_verify_range = false) := by
    by_cases hf : op &&& DO_FLASH ≠ 0
    · refine ⟨unsafe_abort_calls erase_type, ?_, ?_⟩
      · by_cases ha : (r.address / P) * P ≠ r.address
        · simp [dispatch, hs, fuse_map_program, hf, ha, abort_and_clean_up_eq, and_then]
        · have hl : (r.data_len / P) * P ≠ r.data_len := by
            rw [div_mul_ne_iff] at ha ⊢
            tauto
          simp [dispatch, hs, fuse_map_program, hf, ha, hl, abort_and_clean_up_eq, and_then]
      · intro c hc
        simp [unsafe_abort_calls] at hc
        rcases hc with h | h | h <;> subst h <;> exact ⟨rfl, rfl, rfl⟩
    · have hv : op &&& DO_VERIFY ≠ 0 := by tauto
      refine ⟨[Call.refresh], ?_, ?_⟩
      · by_cases ha : (r.address / P) * P ≠ r.address
        · simp [dispatch, hs, fuse_map_program, hf, fuse_map_verify, hv, ha, just_abort_eq,
            and_then]
        · have hl : (r.data_len / P) * P ≠ r.data_len := by
            rw [div_mul_ne_iff] at ha ⊢
            tauto
          simp [dispatch, hs, fuse_map_program, hf, fuse_map_verify, hv, ha, hl, just_abort_eq,
            and_then]
      · intro c hc
        simp at hc
        subst hc
        exact ⟨rfl, rfl, rfl⟩
  obtain ⟨ext, hd, hno⟩ := key
  have hrun := do_work_loop_exit P op env erase_type r rest tag t n 1 (t ++ ext) hd
  exact ⟨ext, hrun, hno, by rw [hrun]; rfl⟩

/-- C1 at a concrete record: address 1 with page size 2, everything requested. -/
theorem misaligned_fuse_map_no_page_call_witness :
    ∃ ext, do_work_loop 2 63 (fun _ _ => 1) 7
          (some ⟨Section.FUSE_MAP, 1, [0, 0, 7, 0]⟩ :: []) false [] 1
          = ⟨Flow.exit 1, [] ++ ext, 1 + 1⟩
      ∧ (∀ c ∈ ext, c.is_set_page = false ∧ c.is_write_page = false
            ∧ c.is_verify_range = false)
      ∧ exit_status (do_work_loop 2 63 (fun _ _ => 1) 7
          (some ⟨Section.FUSE_MAP, 1, [0, 0, 7, 0]⟩ :: []) false [] 1) = some 1 :=
  misaligned_fuse_map_no_page_call 2 63 (fun _ _ => 1) 7 ⟨Section.FUSE_MAP, 1, [0, 0, 7, 0]⟩
    [] false [] 1 (by decide) rfl (by decide) (by decide)

/-- C2: for a page-aligned FuseMap record whose payload bytes are all zero, with
Program requested, the program phase issues no call at all (no set-target-page,
write-page or busy-wait).  When Verify is requested too and set-target-page and
read-verify-range succeed, the record's calls are set-target-page(address / P,
tag_data_seen) followed by the read-verify-range chunks, whose lengths sum to the
record's length; for a length of 2 * P that is one read-verify-range of the whole
payload. -/
theorem all_zero_fuse_map (P op : Nat) (env : Env) (erase_type : Nat) (r : Record)
    (tag : Bool) (t : Trace) (hP : 0 < P) (hs : r.sect = Section.FUSE_MAP)
    (hf : op &&& DO_FLASH ≠ 0)
    (ha : r.address % P = 0) (hl : r.data_len % P = 0) (hz : ∀ b ∈ r.data, b = 0) :
    fuse_map_program P op env erase_type r tag t = (Flow.next, t)
      ∧ (op &&& DO_VERIFY ≠ 0 →
          (∀ t pg tg, env t (Call.set_configuration_flash_address pg tg) = 1) →
          (∀ t d l, env t (Call.verify_configuration_flash d l) = 1) →
          dispatch P op env erase_type r tag t =
              (Flow.next, t ++ Call.set_configuration_flash_address (r.address / P) tag ::
                (List.range (iterations r.data_len (P * 8))).map (chunk_call P r.data))
            ∧ ((List.range (iterations r.data_len (P * 8))).map
                (chunk_len P r.data_len)).sum = r.data_len
            ∧ (r.data_len = 2 * P →
                dispatch P op env erase_type r tag t =
                  (Flow.next, t ++ [Call.set_configuration_flash_address (r.address / P) tag,
                    Call.verify_configuration_flash r.data (2 * P)]))) := by
  have hp := fuse_map_program_all_zero P op env erase_type r tag t hf ha hl hz
  refine ⟨hp, ?_⟩
  intro hv hset hver
  have hd : dispatch P op env erase_type r tag t =
      (Flow.next, t ++ Call.set_configuration_flash_address (r.address / P) tag ::
        (List.range (iterations r.data_len (P * 8))).map (chunk_call P r.data)) := by
    simp only [dispatch, hs, hp, and_then]
    exact fuse_map_verify_ok P op env r tag t hP hv ha hl hset hver
  refine ⟨hd, chunk_len_total P r.data_len hP, ?_⟩
  intro h2
  rw [hd]
  have hit : iterations r.data_len (P * 8) = 1 := by
    unfold iterations
    apply Nat.div_eq_of_lt_le <;> omega
  have hlen : r.data.length = 2 * P := h2
  have hcl : chunk_len P (2 * P) 0 = 2 * P := by
    unfold chunk_len
    omega
  have hc : chunk_call P r.data 0 = Call.verify_configuration_flash r.data (2 * P) := by
    unfold chunk_call
    rw [hlen, hcl, Nat.zero_mul, List.drop_zero, List.take_of_length_le (by omega)]
  rw [hit]
  simp [List.range_succ, hc]

/-- C2 at a concrete record: page size 2, four zero bytes at address 0, everything
requested, a device on which every primitive succeeds. -/
theorem all_zero_fuse_map_witness :
    fuse_map_program 2 63 (fun _ _ => 1) 7 ⟨Section.FUSE_MAP, 0, [0, 0, 0, 0]⟩ false []
        = (Flow.next, [])
      ∧ dispatch 2 63 (fun _ _ => 1) 7 ⟨Section.FUSE_MAP, 0, [0, 0, 0, 0]⟩ false []
        = (Flow.next, [Call.set_configuration_flash_address 0 false,
            Call.verify_configuration_flash [0, 0, 0, 0] 4]) :=
  have h := all_zero_fuse_map 2 63 (fun _ _ => 1) 7 ⟨Section.FUSE_MAP, 0, [0, 0, 0, 0]⟩
    false [] (by decide) rfl (by decide) (by decide) (by decide) (by decide)
  ⟨h.1, (h.2 (by decide) (fun _ _ _ => rfl) (fun _ _ _ => rfl)).2.2 rfl⟩

/-- C3: for a page-aligned FuseMap record of length L with a non-zero byte, with
Program requested and every primitive succeeding, the program phase issues one
set-target-page(address / P, tag_data_seen) and then, for k = 0 .. L / P - 1 in
order, write-page of the bytes [k * P, (k + 1) * P) followed by a busy-wait.  The
calls of the verify phase, if any, come after all of them; the program calls
contain no read-verify-range and the verify calls no write-page.  For L = 2 * P
there are two write-page calls, page 0 then page 1. -/
theorem nonzero_fuse_map_program_pages (P op : Nat) (env : Env) (erase_type : Nat) (r : Record)
    (tag : Bool) (t : Trace) (hP : 0 < P) (hs : r.sect = Section.FUSE_MAP)
    (hf : op &&& DO_FLASH ≠ 0)
    (ha : r.address % P = 0) (hl : r.data_len % P = 0) (hnz : ∃ b ∈ r.data, b ≠ 0)
    (henv : ∀ t c, env t c = 1) :
    fuse_map_program P op env erase_type r tag t =
        (Flow.next, t ++ Call.set_configuration_flash_address (r.address / P) tag ::
          (List.range (r.data_len / P)).flatMap (page_calls P r.data))
      ∧ dispatch P op env erase_type r tag t =
        (Flow.next, t ++ (Call.set_configuration_flash_address (r.address / P) tag ::
            (List.range (r.data_len / P)).flatMap (page_calls P r.data))
          ++ (if op &&& DO_VERIFY ≠ 0 then
                Call.set_configuration_flash_address (r.address / P) tag ::
                  (List.range (iterations r.data_len (P * 8))).map (chunk_call P r.data)
              else []))
      ∧ (∀ c ∈ (List.range (r.data_len / P)).flatMap (page_calls P r.data),
            c.is_verify_range = false)
      ∧ (∀ c ∈ (List.range (iterations r.data_len (P * 8))).map (chunk_call P r.data),
            c.is_write_page = false)
      ∧ (r.data_len = 2 * P →
          fuse_map_program P op env erase_type r tag t =
            (Flow.next, t ++ [Call.set_configuration_flash_address (r.address / P) tag,
              Call.program_configuration_flash (r.data.take P) P, Call.wait_not_busy,
              Call.program_configuration_flash ((r.data.drop P).take P) P,
              Call.wait_not_busy])) := by
  have hp := fuse_map_program_ok P op env erase_type r tag t hP hf ha hl hnz
    (fun _ _ _ => henv _ _) (fun _ _ _ => henv _ _) (fun _ => henv _ _)
  refine ⟨hp, ?_, ?_, ?_, ?_⟩
  · simp only [dispatch, hs, hp, and_then]
    by_cases hv : op &&& DO_VERIFY ≠ 0
    · rw [fuse_map_verify_ok P op env r tag _ hP hv ha hl (fun _ _ _ => henv _ _)
        (fun _ _ _ => henv _ _)]
      simp [hv]
    · simp [fuse_map_verify, hv]
  · intro c hc
    simp only [List.mem_flatMap, page_calls] at hc
    obtain ⟨k, _, hk⟩ := hc
    simp at hk
    rcases hk with h | h <;> subst h <;> rfl
  · intro c hc
    simp only [List.mem_map, chunk_call] at hc
    obtain ⟨k, _, hk⟩ := hc
    subst hk
    rfl
  · intro h2
    rw [hp, h2]
    have hq : 2 * P / P = 2 := by
      rw [Nat.mul_div_cancel _ hP]
    rw [hq]
    simp [List.range_succ, page_calls]

/-- C3 at a concrete record: page size 2, bytes 0 0 7 0 at address 0, everything
requested, a device on which every primitive succeeds. -/
theorem nonzero_fuse_map_program_pages_witness :
    fuse_map_program 2 63 (fun _ _ => 1) 7 ⟨Section.FUSE_MAP, 0, [0, 0, 7, 0]⟩ false []
        = (Flow.next, [Call.set_configuration_flash_address 0 false,
            Call.program_configuration_flash [0, 0] 2, Call.wait_not_busy,
            Call.program_configuration_flash [7, 0] 2, Call.wait_not_busy]) :=
  (nonzero_fuse_map_program_pages 2 63 (fun _ _ => 1) 7 ⟨Section.FUSE_MAP, 0, [0, 0, 7, 0]⟩
    false [] (by decide) rfl (by decide) (by decide) (by decide) (by decide)
    (fun _ _ => rfl)).2.2.2.2 rfl

/-- C4: for a page-aligned FuseMap record of length L with Verify requested and every
primitive succeeding, the verify phase issues set-target-page and then
ceil(L / (8 * P)) read-verify-range calls, the k-th at offset k * 8 * P with length
min(L - k * 8 * P, 8 * P).  Every such length is positive, a multiple of P and at
most 8 * P; the lengths of the chunks before the k-th sum to its offset (the chunks
are contiguous and do not overlap); all lengths sum to L. -/
theorem verify_phase_chunks (P op : Nat) (env : Env) (r : Record)
    (tag : Bool) (t : Trace) (hP : 0 < P) (hv : op &&& DO_VERIFY ≠ 0)
    (ha : r.address % P = 0) (hl : r.data_len % P = 0)
    (henv : ∀ t c, env t c = 1) :
    fuse_map_verify P op env r tag t =
        (Flow.next, t ++ Call.set_configuration_flash_address (r.address / P) tag ::
          (List.range ((r.data_len + 8 * P - 1) / (8 * P))).map
            (fun k => Call.verify_configuration_flash
              ((r.data.drop (k * (8 * P))).take (min (r.data_len - k * (8 * P)) (8 * P)))
              (min (r.data_len - k * (8 * P)) (8 * P))))
      ∧ (∀ k, k < (r.data_len + 8 * P - 1) / (8 * P) →
          0 < min (r.data_len - k * (8 * P)) (8 * P)
          ∧ min (r.data_len - k * (8 * P)) (8 * P) % P = 0
          ∧ min (r.data_len - k * (8 * P)) (8 * P) ≤ 8 * P
          ∧ ((List.range k).map (fun j => min (r.data_len - j * (8 * P)) (8 * P))).sum
              = k * (8 * P))
      ∧ ((List.range ((r.data_len + 8 * P - 1) / (8 * P))).map
            (fun j => min (r.data_len - j * (8 * P)) (8 * P))).sum = r.data_len := by
  have h8 : 8 * P = P * 8 := Nat.mul_comm 8 P
  have hcl : (fun j => min (r.data_len - j * (P * 8)) (P * 8)) = chunk_len P r.data_len := rfl
  have hcc : (fun k => Call.verify_configuration_flash
      ((r.data.drop (k * (P * 8))).take (min (r.data_len - k * (P * 8)) (P * 8)))
      (min (r.data_len - k * (P * 8)) (P * 8))) = chunk_call P r.data := rfl
  have hit : (r.data_len + P * 8 - 1) / (P * 8) = iterations r.data_len (P * 8) := rfl
  rw [h8, hcl, hcc, hit]
  refine ⟨fuse_map_verify_ok P op env r tag t hP hv ha hl (fun _ _ _ => henv _ _)
    (fun _ _ _ => henv _ _), ?_, chunk_len_total P r.data_len hP⟩
  intro k hk
  have h := chunk_len_facts P r.data_len k hP hl hk
  rw [h8] at h
  exact h

/-- C4 at a concrete record: page size 1, twenty bytes, so chunks of 8, 8 and 4. -/
theorem verify_phase_chunks_witness :
    fuse_map_verify 1 63 (fun _ _ => 1) ⟨Section.FUSE_MAP, 3, List.replicate 20 5⟩ true []
        = (Flow.next, [Call.set_configuration_flash_address 3 true,
            Call.verify_configuration_flash (List.replicate 8 5) 8,
            Call.verify_configuration_flash (List.replicate 8 5) 8,
            Call.verify_configuration_flash (List.replicate 4 5) 4]) :=
  (verify_phase_chunks 1 63 (fun _ _ => 1) ⟨Section.FUSE_MAP, 3, List.replicate 20 5⟩
    true [] (by decide) (by decide) (by decide) (by decide) (fun _ _ => rfl)).1

/-- C10: when the dispatcher reaches an End record and commit and the busy-wait after
it succeed, then with Refresh requested and refresh succeeding the calls issued for
the record are exactly commit, busy-wait, refresh, busy-wait, and with Refresh not
requested exactly commit, busy-wait.  In both cases `do_work` returns, so the exit
status is 0, whatever the last busy-wait gives, and no further record is pulled. -/
theorem end_record_finalization (P op : Nat) (env : Env) (erase_type : Nat) (r : Record)
    (rest : List (Option Record)) (tag : Bool) (t : Trace) (n : Nat)
    (hs : r.sect = Section.END)
    (hdone : env t Call.program_done = 1)
    (hwait : env (t ++ [Call.program_done]) Call.wait_not_busy = 1) :
    (op &&& DO_REFRESH ≠ 0 →
      env (t ++ [Call.program_done, Call.wait_not_busy]) Call.refresh = 1 →
        do_work_loop P op env erase_type (some r :: rest) tag t n =
            ⟨Flow.ret, t ++ [Call.program_done, Call.wait_not_busy, Call.refresh,
              Call.wait_not_busy], n + 1⟩
          ∧ exit_status (do_work_loop P op env erase_type (some r :: rest) tag t n) = some 0)
      ∧ (op &&& DO_REFRESH = 0 →
        do_work_loop P op env erase_type (some r :: rest) tag t n =
            ⟨Flow.ret, t ++ [Call.program_done, Call.wait_not_busy], n + 1⟩
          ∧ exit_status (do_work_loop P op env erase_type (some r :: rest) tag t n) = some 0) := by
  constructor
  · intro hr href
    have hd : dispatch P op env erase_type r tag t =
        (Flow.ret, t ++ [Call.program_done, Call.wait_not_busy, Call.refresh,
          Call.wait_not_busy]) := by
      simp [dispatch, hs, section_end, hdone, hwait, hr, href]
    have hrun : do_work_loop P op env erase_type (some r :: rest) tag t n =
        ⟨Flow.ret, t ++ [Call.program_done, Call.wait_not_busy, Call.refresh,
          Call.wait_not_busy], n + 1⟩ := by
      rw [do_work_loop_some, hd]
    exact ⟨hrun, by rw [hrun]; rfl⟩
  · intro hr
    have hd : dispatch P op env erase_type r tag t =
        (Flow.ret, t ++ [Call.program_done, Call.wait_not_busy]) := by
      simp [dispatch, hs, section_end, hdone, hwait, hr]
    have hrun : do_work_loop P op env erase_type (some r :: rest) tag t n =
        ⟨Flow.ret, t ++ [Call.program_done, Call.wait_not_busy], n + 1⟩ := by
      rw [do_work_loop_some, hd]
    exact ⟨hrun, by rw [hrun]; rfl⟩

/-- C10 at a concrete run: Refresh requested, the busy-wait after refresh (the fourth
call) fails, a FuseMap record follows the End record and is never pulled. -/
theorem end_record_finalization_witness :
    do_work_loop 2 63 (fun t _ => if t.length = 3 then 0 else 1) 7
        (some ⟨Section.END, 0, []⟩ :: [some ⟨Section.FUSE_MAP, 0, [1, 2]⟩]) false [] 1 =
      ⟨Flow.ret, [] ++ [Call.program_done, Call.wait_not_busy, Call.refresh,
        Call.wait_not_busy], 1 + 1⟩
    ∧ exit_status (do_work_loop 2 63 (fun t _ => if t.length = 3 then 0 else 1) 7
        (some ⟨Section.END, 0, []⟩ :: [some ⟨Section.FUSE_MAP, 0, [1, 2]⟩]) false [] 1)
      = some 0 :=
  (end_record_finalization 2 63 (fun t _ => if t.length = 3 then 0 else 1) 7
    ⟨Section.END, 0, []⟩ [some ⟨Section.FUSE_MAP, 0, [1, 2]⟩] false [] 1 rfl rfl rfl).1
    (by decide) rfl

/-- C7 (as amended): at every point of a session, that is for every record `r`
dispatched after the ignored leading record and the records `pre`, the
`tag_data_seen` passed to each set-target-page call issued for `r` is true if and
only if some Note record among `pre` has a text (the bytes of its payload before the
first NUL) that contains `"TAG DATA"`; the value never goes back from true to false
as more records are dispatched.  The other case is that the run has ended before `r`
is reached, whatever follows `pre`. -/
theorem tag_data_seen_latch (P : Nat) (k : EraseBits) (op : Nat) (env : Env)
    (lead : Record) (pre : List Record) (r : Record) (rest : List (Option Record)) :
    (pre.foldl latch false = true ↔ ∃ q ∈ pre, has_marker q)
      ∧ (∀ more, pre.foldl latch false = true → (pre ++ more).foldl latch false = true)
      ∧ ((∃ t1, do_work P k op env (some lead :: (pre.map some ++ some r :: rest))
              = do_work_loop P op env (compute_erase_type k op) (some r :: rest)
                  (pre.foldl latch false) t1 (1 + pre.length)
            ∧ ∃ ext, (dispatch P op env (compute_erase_type k op) r
                  (pre.foldl latch false) t1).2 = t1 ++ ext
              ∧ ∀ pg tg, Call.set_configuration_flash_address pg tg ∈ ext →
                  (tg = true ↔ ∃ q ∈ pre, has_marker q))
        ∨ (∃ run : Run, run.flow ≠ Flow.next
            ∧ ∀ s, do_work P k op env (some lead :: (pre.map some ++ s)) = run)) := by
  have hiff : pre.foldl latch false = true ↔ ∃ q ∈ pre, has_marker q := by
    rw [foldl_latch_iff]; simp
  refine ⟨hiff, ?_, ?_⟩
  · intro more h
    rw [List.foldl_append, foldl_latch_iff]
    exact Or.inl h
  · rcases do_work_runs_loop P k op env lead with ⟨t0, h0⟩ | ⟨t0, h0⟩
    · rcases do_work_loop_records P op env (compute_erase_type k op) pre false t0 1 with
        ⟨t1, h1⟩ | ⟨run, hf, h1⟩
      · refine Or.inl ⟨t1, by rw [h0, h1], ?_⟩
        obtain ⟨ext, he, hq⟩ := dispatch_emits P op env (compute_erase_type k op) r
          (pre.foldl latch false) t1
        refine ⟨ext, he, fun pg tg hmem => ?_⟩
        rw [hq _ hmem pg tg rfl]
        exact hiff
      · exact Or.inr ⟨run, hf, fun s => by rw [h0, h1]⟩
    · exact Or.inr ⟨⟨Flow.exit 1, t0, 1⟩, by simp, fun s => h0 _⟩

/-- C7 at a concrete session: a Note with `"TAG DATA"` in its text, then a FuseMap
record; both set-target-page calls pass true. -/
theorem tag_data_seen_latch_witness :
    do_work 2 ⟨1, 2, 4⟩ 63 (fun _ _ => 1)
        [some ⟨Section.NOTE, 0, []⟩,
          some ⟨Section.NOTE, 0, [32, 84, 65, 71, 32, 68, 65, 84, 65, 0]⟩,
          some ⟨Section.FUSE_MAP, 0, [0, 0, 7, 0]⟩]
      = ⟨Flow.stuck,
          [Call.check_device_id_quick, Call.enable_offline_configuration,
            Call.wait_not_busy, Call.erase_flash 7, Call.wait_not_busy,
            Call.set_configuration_flash_address 0 true,
            Call.program_configuration_flash [0, 0] 2, Call.wait_not_busy,
            Call.program_configuration_flash [7, 0] 2, Call.wait_not_busy,
            Call.set_configuration_flash_address 0 true,
            Call.verify_configuration_flash [0, 0, 7, 0] 4], 3⟩
      ∧ ([⟨Section.NOTE, 0, [32, 84, 65, 71, 32, 68, 65, 84, 65, 0]⟩].foldl latch false = true
          ↔ ∃ q ∈ [(⟨Section.NOTE, 0, [32, 84, 65, 71, 32, 68, 65, 84, 65, 0]⟩ : Record)],
              has_marker q) :=
  ⟨by decide, (tag_data_seen_latch 2 ⟨1, 2, 4⟩ 63 (fun _ _ => 1) ⟨Section.NOTE, 0, []⟩
    [⟨Section.NOTE, 0, [32, 84, 65, 71, 32, 68, 65, 84, 65, 0]⟩]
    ⟨Section.FUSE_MAP, 0, [0, 0, 7, 0]⟩ []).1⟩

/-- C7 as stated fails: the payload of the Note dispatched before the FuseMap record
contains the bytes of `"TAG DATA"`, after a NUL byte, and both set-target-page calls
of the FuseMap record pass false. -/
theorem tag_data_after_nul_counterexample :
    TAG_DATA <:+: [0, 84, 65, 71, 32, 68, 65, 84, 65]
      ∧ do_work 2 ⟨1, 2, 4⟩ 63 (fun _ _ => 1)
          [some ⟨Section.NOTE, 0, []⟩,
            some ⟨Section.NOTE, 0, [0, 84, 65, 71, 32, 68, 65, 84, 65]⟩,
            some ⟨Section.FUSE_MAP, 0, [0, 0, 7, 0]⟩]
        = ⟨Flow.stuck,
            [Call.check_device_id_quick, Call.enable_offline_configuration,
              Call.wait_not_busy, Call.erase_flash 7, Call.wait_not_busy,
              Call.set_configuration_flash_address 0 false,
              Call.program_configuration_flash [0, 0] 2, Call.wait_not_busy,
              Call.program_configuration_flash [7, 0] 2, Call.wait_not_busy,
              Call.set_configuration_flash_address 0 false,
              Call.verify_configuration_flash [0, 0, 7, 0] 4], 3⟩ :=
  ⟨⟨[0], [], rfl⟩, by decide⟩

/-- C19: at the End record a failed commit is silent.  If commit fails the calls
issued for the record are commit alone; if commit succeeds and the busy-wait after it
fails they are commit, busy-wait, whether Refresh is requested or not.  In both cases
no refresh and no erase is issued, `do_work` returns, so the exit status is 0, and no
further record is pulled. -/
theorem end_record_commit_failure (P op : Nat) (env : Env) (erase_type : Nat) (r : Record)
    (rest : List (Option Record)) (tag : Bool) (t : Trace) (n : Nat)
    (hs : r.sect = Section.END) :
    (env t Call.program_done ≠ 1 →
        do_work_loop P op env erase_type (some r :: rest) tag t n
            = ⟨Flow.ret, t ++ [Call.program_done], n + 1⟩
          ∧ exit_status (do_work_loop P op env erase_type (some r :: rest) tag t n) = some 0)
      ∧ (env t Call.program_done = 1 →
          env (t ++ [Call.program_done]) Call.wait_not_busy ≠ 1 →
        do_work_loop P op env erase_type (some r :: rest) tag t n
            = ⟨Flow.ret, t ++ [Call.program_done, Call.wait_not_busy], n + 1⟩
          ∧ exit_status (do_work_loop P op env erase_type (some r :: rest) tag t n)
              = some 0) := by
  constructor
  · intro h
    have hrun := do_work_loop_ret P op env erase_type r rest tag t n
      (t ++ [Call.program_done]) (by simp [dispatch, hs, section_end, h])
    exact ⟨hrun, by rw [hrun]; rfl⟩
  · intro h1 h2
    have hrun := do_work_loop_ret P op env erase_type r rest tag t n
      (t ++ [Call.program_done, Call.wait_not_busy])
      (by simp [dispatch, hs, section_end, h1, h2])
    exact ⟨hrun, by rw [hrun]; rfl⟩

/-- C19 at a concrete run: everything requested, a device on which the busy-wait
after commit (the second call) fails. -/
theorem end_record_commit_failure_witness :
    do_work_loop 2 63 (fun t _ => if t.length = 1 then 0 else 1) 7
        (some ⟨Section.END, 0, []⟩ :: []) false [] 1
      = ⟨Flow.ret, [] ++ [Call.program_done, Call.wait_not_busy], 1 + 1⟩
    ∧ exit_status (do_work_loop 2 63 (fun t _ => if t.length = 1 then 0 else 1) 7
        (some ⟨Section.END, 0, []⟩ :: []) false [] 1) = some 0 :=
  (end_record_commit_failure 2 63 (fun t _ => if t.length = 1 then 0 else 1) 7
    ⟨Section.END, 0, []⟩ [] false [] 1 rfl).2 rfl (by decide)

/-- C20: the leading record has no influence on the run: two streams that differ only
in their first successfully pulled record give the same flow, the same calls with
the same arguments, the same number of pulls and the same exit status. -/
theorem leading_record_ignored (P : Nat) (k : EraseBits) (op : Nat) (env : Env)
    (a b : Record) (s : List (Option Record)) :
    do_work P k op env (some a :: s) = do_work P k op env (some b :: s)
      ∧ main_run P k op env (some a :: s) = main_run P k op env (some b :: s) := by
  have h : do_work P k op env (some a :: s) = do_work P k op env (some b :: s) := by
    simp only [do_work]
  exact ⟨h, by simp only [main_run, h]⟩

/-- C14: when, after the leading record is pulled, the identity check fails, or
enter-configuration-mode fails, or the busy-wait after it fails, `do_work` ends with
`exit(1)` after that call: the calls issued are the set-up calls up to the failing
one (no erase, refresh, commit, program or verify primitive) and no further record
is pulled. -/
theorem setup_failure_no_cleanup (P : Nat) (k : EraseBits) (op : Nat) (env : Env)
    (lead : Record) (s : List (Option Record)) :
    (env [] Call.check_device_id_quick ≠ 1 →
        do_work P k op env (some lead :: s) = ⟨Flow.exit 1, [Call.check_device_id_quick], 1⟩
          ∧ main_run P k op env (some lead :: s) = some 1)
      ∧ (env [] Call.check_device_id_quick = 1 →
          env [Call.check_device_id_quick] Call.enable_offline_configuration ≠ 1 →
        do_work P k op env (some lead :: s)
            = ⟨Flow.exit 1, [Call.check_device_id_quick, Call.enable_offline_configuration], 1⟩
          ∧ main_run P k op env (some lead :: s) = some 1)
      ∧ (env [] Call.check_device_id_quick = 1 →
          env [Call.check_device_id_quick] Call.enable_offline_configuration = 1 →
          env [Call.check_device_id_quick, Call.enable_offline_configuration]
            Call.wait_not_busy ≠ 1 →
        do_work P k op env (some lead :: s)
            = ⟨Flow.exit 1, [Call.check_device_id_quick, Call.enable_offline_configuration,
                Call.wait_not_busy], 1⟩
          ∧ main_run P k op env (some lead :: s) = some 1) := by
  refine ⟨?_, ?_, ?_⟩
  · intro h1
    have h : do_work P k op env (some lead :: s)
        = ⟨Flow.exit 1, [Call.check_device_id_quick], 1⟩ := by simp [do_work, h1]
    exact ⟨h, by rw [main_run, h]; rfl⟩
  · intro h1 h2
    have h : do_work P k op env (some lead :: s)
        = ⟨Flow.exit 1, [Call.check_device_id_quick, Call.enable_offline_configuration], 1⟩ := by
      simp [do_work, h1, h2]
    exact ⟨h, by rw [main_run, h]; rfl⟩
  · intro h1 h2 h3
    have h : do_work P k op env (some lead :: s)
        = ⟨Flow.exit 1, [Call.check_device_id_quick, Call.enable_offline_configuration,
            Call.wait_not_busy], 1⟩ := by
      simp [do_work, h1, h2, h3]
    exact ⟨h, by rw [main_run, h]; rfl⟩

/-- C14 at a concrete run: a device on which enter-configuration-mode (the second
call) fails; the FuseMap record after the leading record is never pulled. -/
theorem setup_failure_no_cleanup_witness :
    do_work 2 ⟨1, 2, 4⟩ 63 (fun t _ => if t.length = 1 then 0 else 1)
        (some ⟨Section.NOTE, 0, []⟩ :: [some ⟨Section.FUSE_MAP, 0, [1, 2]⟩])
      = ⟨Flow.exit 1, [Call.check_device_id_quick, Call.enable_offline_configuration], 1⟩
    ∧ main_run 2 ⟨1, 2, 4⟩ 63 (fun t _ => if t.length = 1 then 0 else 1)
        (some ⟨Section.NOTE, 0, []⟩ :: [some ⟨Section.FUSE_MAP, 0, [1, 2]⟩]) = some 1 :=
  (setup_failure_no_cleanup 2 ⟨1, 2, 4⟩ 63 (fun t _ => if t.length = 1 then 0 else 1)
    ⟨Section.NOTE, 0, []⟩ [some ⟨Section.FUSE_MAP, 0, [1, 2]⟩]).2.1 rfl (by decide)

/-- C13: for an Arch record of length 10 dispatched with FeatureRow requested and
every primitive succeeding, the calls issued for it are: with Program and Verify
requested, program-feature-row(bytes 0..7), busy-wait, program-feature-bits(bytes
8..9), busy-wait, verify-feature-row(bytes 0..7), verify-feature-bits(bytes 8..9),
in that order; with Program only the first four; with Verify only the last two. -/
theorem arch_record_calls (P op : Nat) (env : Env) (erase_type : Nat) (r : Record)
    (tag : Bool) (t : Trace)
    (hs : r.sect = Section.ARCH) (hlen : r.data_len = 10)
    (hfeat : op &&& DO_FEATURE ≠ 0) (henv : ∀ t c, env t c = 1) :
    (op &&& DO_FLASH ≠ 0 → op &&& DO_VERIFY ≠ 0 →
        dispatch P op env erase_type r tag t =
          (Flow.next, t ++ [Call.program_feature_row (r.data.take 8), Call.wait_not_busy,
            Call.program_feature_bits (r.data.drop 8), Call.wait_not_busy,
            Call.verify_feature_row (r.data.take 8),
            Call.verify_feature_bits (r.data.drop 8)]))
      ∧ (op &&& DO_FLASH ≠ 0 → op &&& DO_VERIFY = 0 →
        dispatch P op env erase_type r tag t =
          (Flow.next, t ++ [Call.program_feature_row (r.data.take 8), Call.wait_not_busy,
            Call.program_feature_bits (r.data.drop 8), Call.wait_not_busy]))
      ∧ (op &&& DO_FLASH = 0 → op &&& DO_VERIFY ≠ 0 →
        dispatch P op env erase_type r tag t =
          (Flow.next, t ++ [Call.verify_feature_row (r.data.take 8),
            Call.verify_feature_bits (r.data.drop 8)])) := by
  have hbits : (r.data.drop 8).take 2 = r.data.drop 8 := by
    apply List.take_of_length_le
    have : r.data.length = 10 := hlen
    simp [this]
  refine ⟨?_, ?_, ?_⟩
  · intro hf hv
    simp [dispatch, hs, hfeat, arch_program, arch_verify, hf, hv, hlen, henv, hbits, and_then]
  · intro hf hv
    simp [dispatch, hs, hfeat, arch_program, arch_verify, hf, hv, hlen, henv, hbits, and_then]
  · intro hf hv
    simp [dispatch, hs, hfeat, arch_program, arch_verify, hf, hv, hlen, henv, hbits, and_then]

/-- C13 at a concrete record: ten bytes 1 .. 10, everything requested, a device on
which every primitive succeeds. -/
theorem arch_record_calls_witness :
    dispatch 2 63 (fun _ _ => 1) 7 ⟨Section.ARCH, 0, [1, 2, 3, 4, 5, 6, 7, 8, 9, 10]⟩ false []
      = (Flow.next, [Call.program_feature_row [1, 2, 3, 4, 5, 6, 7, 8], Call.wait_not_busy,
          Call.program_feature_bits [9, 10], Call.wait_not_busy,
          Call.verify_feature_row [1, 2, 3, 4, 5, 6, 7, 8],
          Call.verify_feature_bits [9, 10]]) :=
  (arch_record_calls 2 63 (fun _ _ => 1) 7 ⟨Section.ARCH, 0, [1, 2, 3, 4, 5, 6, 7, 8, 9, 10]⟩
    false [] rfl rfl (by decide) (fun _ _ => rfl)).1 (by decide) (by decide)

/-- C12 (as amended): for an Arch record dispatched with FeatureRow requested and
Program or Verify requested, a length other than 10 ends the run with `exit(1)` and
no feature-row or feature-bits primitive is issued for it.  With FeatureRow requested
but neither Program nor Verify, and with FeatureRow not requested, no call is issued
for the record, whatever its length, and the dispatcher goes on with the next
record. -/
theorem arch_length_guard (P op : Nat) (env : Env) (erase_type : Nat) (r : Record)
    (rest : List (Option Record)) (tag : Bool) (t : Trace) (n : Nat)
    (hs : r.sect = Section.ARCH) :
    (op &&& DO_FEATURE ≠ 0 → (op &&& DO_FLASH ≠ 0 ∨ op &&& DO_VERIFY ≠ 0) →
        r.data_len ≠ 10 →
        ∃ ext, do_work_loop P op env erase_type (some r :: rest) tag t n
              = ⟨Flow.exit 1, t ++ ext, n + 1⟩
          ∧ (∀ c ∈ ext, c.is_feature_call = false)
          ∧ exit_status (do_work_loop P op env erase_type (some r :: rest) tag t n) = some 1)
      ∧ (op &&& DO_FEATURE ≠ 0 → op &&& DO_FLASH = 0 → op &&& DO_VERIFY = 0 →
        do_work_loop P op env erase_type (some r :: rest) tag t n
          = do_work_loop P op env erase_type rest tag t (n + 1))
      ∧ (op &&& DO_FEATURE = 0 →
        do_work_loop P op env erase_type (some r :: rest) tag t n
          = do_work_loop P op env erase_type rest tag t (n + 1)) := by
  have hl : latch tag r = tag := latch_of_not_note tag r (by rw [hs]; decide)
  refine ⟨?_, ?_, ?_⟩
  · intro hfeat hop hlen
    by_cases hf : op &&& DO_FLASH ≠ 0
    · have hd : dispatch P op env erase_type r tag t
          = (Flow.exit 1, t ++ unsafe_abort_calls erase_type) := by
        simp [dispatch, hs, hfeat, arch_program, hf, hlen, abort_and_clean_up_eq, and_then]
      have hrun := do_work_loop_exit P op env erase_type r rest tag t n 1 _ hd
      refine ⟨unsafe_abort_calls erase_type, hrun, ?_, by rw [hrun]; rfl⟩
      intro c hc
      simp [unsafe_abort_calls] at hc
      rcases hc with h | h | h <;> subst h <;> rfl
    · have hv : op &&& DO_VERIFY ≠ 0 := by tauto
      have hd : dispatch P op env erase_type r tag t = (Flow.exit 1, t ++ [Call.refresh]) := by
        simp [dispatch, hs, hfeat, arch_program, arch_verify, hf, hv, hlen, just_abort_eq,
          and_then]
      have hrun := do_work_loop_exit P op env erase_type r rest tag t n 1 _ hd
      refine ⟨[Call.refresh], hrun, ?_, by rw [hrun]; rfl⟩
      intro c hc
      simp at hc
      subst hc
      rfl
  · intro hfeat hf hv
    rw [do_work_loop_next P op env erase_type r rest tag t n t
      (by simp [dispatch, hs, hfeat, arch_program, arch_verify, hf, hv, and_then]), hl]
  · intro hfeat
    rw [do_work_loop_next P op env erase_type r rest tag t n t
      (by simp [dispatch, hs, hfeat]), hl]

/-- C12 at a concrete record: three bytes, everything requested. -/
theorem arch_length_guard_witness :
    ∃ ext, do_work_loop 2 63 (fun _ _ => 1) 7
          (some ⟨Section.ARCH, 0, [1, 2, 3]⟩ :: []) false [] 1
          = ⟨Flow.exit 1, [] ++ ext, 1 + 1⟩
      ∧ (∀ c ∈ ext, c.is_feature_call = false)
      ∧ exit_status (do_work_loop 2 63 (fun _ _ => 1) 7
          (some ⟨Section.ARCH, 0, [1, 2, 3]⟩ :: []) false [] 1) = some 1 :=
  (arch_length_guard 2 63 (fun _ _ => 1) 7 ⟨Section.ARCH, 0, [1, 2, 3]⟩ [] false [] 1 rfl).1
    (by decide) (by decide) (by decide)

/-- C12 as stated fails: with FeatureRow requested and neither Program nor Verify
(`op = 57`), an Arch record of length 3 does not end the run: no call is issued, the
End record after it is dispatched and the exit status is 0. -/
theorem arch_length_unchecked_counterexample :
    57 &&& DO_FEATURE ≠ 0
      ∧ (⟨Section.ARCH, 0, [1, 2, 3]⟩ : Record).data_len ≠ 10
      ∧ do_work_loop 2 57 (fun _ _ => 1) 7
          [some ⟨Section.ARCH, 0, [1, 2, 3]⟩, some ⟨Section.END, 0, []⟩] false [] 1
        = ⟨Flow.ret, [Call.program_done, Call.wait_not_busy, Call.refresh,
            Call.wait_not_busy], 3⟩
      ∧ exit_status (do_work_loop 2 57 (fun _ _ => 1) 7
          [some ⟨Section.ARCH, 0, [1, 2, 3]⟩, some ⟨Section.END, 0, []⟩] false [] 1)
        = some 0 := by
  decide

/-- C16: for every operation mask the erase mask computed in `do_work` is
`ERASE_FEATURE_ROW | ERASE_CONFIGURATION | ERASE_USER_FLASH`: both guards are
`op & (flag == 0)`, that is `op & 0`, and no region is dropped.  Every erase call of a
run, the initial erase and any recovery erase, carries this mask. -/
theorem erase_mask_all_regions (P : Nat) (k : EraseBits) (op : Nat) (env : Env)
    (stream : List (Option Record)) :
    op &&& (if DO_FEATURE = 0 then 1 else 0) = 0
      ∧ op &&& (if DO_USERFLASH = 0 then 1 else 0) = 0
      ∧ compute_erase_type k op
          = k.ERASE_FEATURE_ROW ||| k.ERASE_CONFIGURATION ||| k.ERASE_USER_FLASH
      ∧ ∀ x, Call.erase_flash x ∈ (do_work P k op env stream).trace →
          x = k.ERASE_FEATURE_ROW ||| k.ERASE_CONFIGURATION ||| k.ERASE_USER_FLASH := by
  refine ⟨by simp [DO_FEATURE], by simp [DO_USERFLASH], compute_erase_type_eq k op, ?_⟩
  intro x hx
  have h := do_work_emits P k op env
    (fun c => ∀ y, c = Call.erase_flash y → y = compute_erase_type k op)
    (by
      intro tag r c hc y hy
      subst hy
      exact hc.1)
    (by
      intro c hc y hy
      subst hy
      simpa [unsafe_abort_calls] using hc)
    (by intro y hy; cases hy) (by intro y hy; cases hy) (by intro y hy; cases hy)
    (by intro _ y hy; cases hy; rfl) stream _ hx x rfl
  rw [h, compute_erase_type_eq]

/-- C17: each phase is gated by the operation mask over the whole run.  For every
record stream and every outcome of the primitives, with Program not requested no
write-page, program-feature-row, program-feature-bits or program-user-code call is
issued, and with Verify not requested no read-verify-range, verify-feature-row,
verify-feature-bits or verify-user-code call is issued. -/
theorem phase_gating (P : Nat) (k : EraseBits) (op : Nat) (env : Env)
    (stream : List (Option Record)) :
    (op &&& DO_FLASH = 0 →
        ∀ c ∈ (do_work P k op env stream).trace, c.is_program_primitive = false)
      ∧ (op &&& DO_VERIFY = 0 →
        ∀ c ∈ (do_work P k op env stream).trace, c.is_verify_primitive = false) := by
  constructor
  · intro hf
    apply do_work_emits P k op env (fun c => c.is_program_primitive = false)
    · intro tag r c hc
      cases c <;> simp_all [allowed, Call.is_program_primitive]
    · intro c hc
      simp [unsafe_abort_calls] at hc
      rcases hc with h | h | h <;> subst h <;> rfl
    · rfl
    · rfl
    · rfl
    · intro _; rfl
  · intro hv
    apply do_work_emits P k op env (fun c => c.is_verify_primitive = false)
    · intro tag r c hc
      cases c <;> simp_all [allowed, Call.is_verify_primitive]
    · intro c hc
      simp [unsafe_abort_calls] at hc
      rcases hc with h | h | h <;> subst h <;> rfl
    · rfl
    · rfl
    · rfl
    · intro _; rfl

/-- C17 at a concrete run: Program not requested (`op = 61`), a FuseMap record, an
Arch record and a UserCode record. -/
theorem phase_gating_witness :
    ∀ c ∈ (do_work 2 ⟨1, 2, 4⟩ 61 (fun _ _ => 1)
        [some ⟨Section.NOTE, 0, []⟩, some ⟨Section.FUSE_MAP, 0, [0, 0, 7, 0]⟩,
          some ⟨Section.ARCH, 0, [1, 2, 3, 4, 5, 6, 7, 8, 9, 10]⟩,
          some ⟨Section.USERCODE, 5, []⟩, some ⟨Section.END, 0, []⟩]).trace,
      c.is_program_primitive = false :=
  (phase_gating 2 ⟨1, 2, 4⟩ 61 (fun _ _ => 1)
    [some ⟨Section.NOTE, 0, []⟩, some ⟨Section.FUSE_MAP, 0, [0, 0, 7, 0]⟩,
      some ⟨Section.ARCH, 0, [1, 2, 3, 4, 5, 6, 7, 8, 9, 10]⟩,
      some ⟨Section.USERCODE, 5, []⟩, some ⟨Section.END, 0, []⟩]).1 (by decide)

/-- C16 at a concrete run: FeatureRow cleared (`op = 47`), region bits 1, 2 and 4, a
pull error after the leading record: the initial erase and the recovery erase both
carry all three regions. -/
theorem erase_mask_all_regions_witness :
    (do_work 2 ⟨1, 2, 4⟩ 47 (fun _ _ => 1) [some ⟨Section.NOTE, 0, []⟩, none]).trace
        = [Call.check_device_id_quick, Call.enable_offline_configuration, Call.wait_not_busy,
            Call.erase_flash 7, Call.wait_not_busy,
            Call.erase_flash 7, Call.wait_not_busy, Call.refresh]
      ∧ 7 = (⟨1, 2, 4⟩ : EraseBits).ERASE_FEATURE_ROW |||
          (⟨1, 2, 4⟩ : EraseBits).ERASE_CONFIGURATION |||
          (⟨1, 2, 4⟩ : EraseBits).ERASE_USER_FLASH :=
  ⟨by decide, (erase_mask_all_regions 2 ⟨1, 2, 4⟩ 47 (fun _ _ => 1)
    [some ⟨Section.NOTE, 0, []⟩, none]).2.2.2 7 (by decide)⟩

/-- C11 (the code departs from it): when the first pull reports an error `do_work`
returns at once, without a call, and the exit status is 0 although no End record was
reached.  When the first pull succeeds the claim holds: the exit status is 0 exactly
when a commit was issued, that is when the dispatcher reached an End record, and a
run that ends otherwise ends with exit status 1. -/
theorem exit_zero_without_end_record (P : Nat) (k : EraseBits) (op : Nat) (env : Env)
    (s : List (Option Record)) :
    do_work P k op env (none :: s) = ⟨Flow.ret, [], 1⟩
      ∧ main_run P k op env (none :: s) = some 0
      ∧ ∀ lead : Record,
          (main_run P k op env (some lead :: s) = some 0
            ↔ Call.program_done ∈ (do_work P k op env (some lead :: s)).trace)
          ∧ (main_run P k op env (some lead :: s) = some 0
              ∨ main_run P k op env (some lead :: s) = some 1
              ∨ main_run P k op env (some lead :: s) = none) := by
  refine ⟨by simp [do_work], by simp [main_run, do_work, exit_status], ?_⟩
  intro lead
  obtain ⟨t0, hno, h | h⟩ := do_work_setup_calls P k op env lead
  · obtain ⟨ext, htr, hiff, hcases⟩ :=
      do_work_loop_flow P op env (compute_erase_type k op) s false t0 1
    rw [main_run, h s, htr]
    constructor
    · rw [exit_status_zero_iff _ hcases, hiff, List.mem_append]
      simp [hno]
    · rcases hcases with h1 | h1 | h1 <;> simp [exit_status, h1]
  · rw [main_run, h s]
    simp [exit_status, hno]

/-- C15: for a command line made of flags drawn from `-e -f -v -r -F -u` followed by
a file path (an argument that does not start with `-`), the option loop of `main`
ends at the path with the operation mask `expected_op flags`, and `main` passes that
mask to `do_work` once the file and the device are open.  The mask is at most 63, and
each of the bits Erase, Program, Verify, Refresh, FeatureRow, UserFlash is cleared in
it exactly when its flag occurs among the flags; it is the same for two sequences
with the same flags, whatever their order and repetitions. -/
theorem flags_clear_mask_bits (host : Host) (flags : List (List Char)) (path : List Char)
    (hflags : ∀ a ∈ flags, is_mask_flag a) (hpath : ch path 0 ≠ '-') :
    parse_options host (flags ++ [path]) initial_options
        = some (⟨none, Mode.MODE_SPI, 0x40, expected_op flags⟩, [path])
      ∧ (∀ (P : Nat) (k : EraseBits) (env : Env) (stream : List (Option Record)),
          host.open_jedec (some path) = 1 →
          host.open_device host.DEFAULT_SPI_DEV Mode.MODE_SPI 0x40 = 1 →
          main P k host env stream (flags ++ [path])
            = exit_status (do_work P k (expected_op flags) env stream))
      ∧ expected_op flags ≤ 63
      ∧ (expected_op flags &&& DO_ERASE = 0 ↔ flag_e ∈ flags)
      ∧ (expected_op flags &&& DO_FLASH = 0 ↔ flag_f ∈ flags)
      ∧ (expected_op flags &&& DO_VERIFY = 0 ↔ flag_v ∈ flags)
      ∧ (expected_op flags &&& DO_REFRESH = 0 ↔ flag_r ∈ flags)
      ∧ (expected_op flags &&& DO_FEATURE = 0 ↔ flag_F ∈ flags)
      ∧ (expected_op flags &&& DO_USERFLASH = 0 ↔ flag_u ∈ flags)
      ∧ (∀ flags1 : List (List Char), (∀ a, a ∈ flags1 ↔ a ∈ flags) →
          expected_op flags1 = expected_op flags) := by
  have hinit : initial_options = ⟨none, Mode.MODE_SPI, 0x40, expected_op []⟩ := by decide
  have hparse : parse_options host (flags ++ [path]) initial_options
      = some (⟨none, Mode.MODE_SPI, 0x40, expected_op flags⟩, [path]) := by
    rw [hinit, parse_options_flags host path hpath none Mode.MODE_SPI 0x40 flags [] hflags]
    simp
  have hb := mask_of_bits (decide (flag_e ∈ flags)) (decide (flag_f ∈ flags))
    (decide (flag_v ∈ flags)) (decide (flag_r ∈ flags)) (decide (flag_F ∈ flags))
    (decide (flag_u ∈ flags))
  simp only [decide_eq_true_eq] at hb
  obtain ⟨b0, b1, b2, b3, b4, b5, b6⟩ := hb
  refine ⟨hparse, ?_, b0, b1, b2, b3, b4, b5, b6, ?_⟩
  · intro P k env stream hj hd
    simp [main, hparse, hj, hd, main_run]
  · intro flags1 h
    simp only [expected_op, h]

/-- C15 at a concrete command line: `-e -F -e x.jed`. -/
theorem flags_clear_mask_bits_witness :
    parse_options ⟨fun _ => 0, -1, 1, fun _ => 1, fun _ _ _ => 1, [], []⟩
        ([['-', 'e'], ['-', 'F'], ['-', 'e']] ++ [['x', '.', 'j', 'e', 'd']]) initial_options
      = some (⟨none, Mode.MODE_SPI, 0x40, expected_op [['-', 'e'], ['-', 'F'], ['-', 'e']]⟩,
          [['x', '.', 'j', 'e', 'd']])
    ∧ expected_op [['-', 'e'], ['-', 'F'], ['-', 'e']] = 46 :=
  ⟨(flags_clear_mask_bits ⟨fun _ => 0, -1, 1, fun _ => 1, fun _ _ _ => 1, [], []⟩
    [['-', 'e'], ['-', 'F'], ['-', 'e']] ['x', '.', 'j', 'e', 'd']
    (by decide) (by decide)).1, by decide⟩

/-- C8: every verify-phase failure selects safe-abort.  Take a record that passes the
tests of its `case` (a page-aligned FuseMap record, an Arch record of length 10, a
UserCode record) and any call `c` of its verify phase (set-target-page, a
read-verify-range chunk, verify-feature-row, verify-feature-bits, verify-user-code):
if the calls of the program phase and the verify calls before `c` succeed and `c`
fails, the run issues exactly one refresh after `c` and ends with `exit(1)`, without
another pull.  A misaligned FuseMap record dispatched with Verify but not Program
requested gets exactly one refresh and `exit(1)`. -/
theorem verify_failure_safe_abort (P op : Nat) (env : Env) (erase_type : Nat) (r : Record)
    (rest : List (Option Record)) (tag : Bool) (t : Trace) (n : Nat) :
    (0 < P → well_formed P r →
      ∀ (a : List Call) (c : Call) (b : List Call),
        expected_verify_calls P op r tag = a ++ c :: b →
        succeeds env t (expected_program_calls P op r tag ++ a) →
        env (t ++ expected_program_calls P op r tag ++ a) c ≠ 1 →
        do_work_loop P op env erase_type (some r :: rest) tag t n
            = ⟨Flow.exit 1, t ++ expected_program_calls P op r tag ++ a ++ [c, Call.refresh],
                n + 1⟩
          ∧ exit_status (do_work_loop P op env erase_type (some r :: rest) tag t n) = some 1)
      ∧ (r.sect = Section.FUSE_MAP → op &&& DO_FLASH = 0 → op &&& DO_VERIFY ≠ 0 →
          (r.address % P ≠ 0 ∨ r.data_len % P ≠ 0) →
          do_work_loop P op env erase_type (some r :: rest) tag t n
              = ⟨Flow.exit 1, t ++ [Call.refresh], n + 1⟩
          ∧ exit_status (do_work_loop P op env erase_type (some r :: rest) tag t n) = some 1) := by
  constructor
  · intro hP hw a c b hsplit hsucc hfail
    by_cases hk : r.sect = Section.FUSE_MAP ∨ r.sect = Section.ARCH ∨ r.sect = Section.USERCODE
    · rw [succeeds_append] at hsucc
      have hprog : program_phase P op env erase_type r tag t
          = (Flow.next, t ++ expected_program_calls P op r tag) := by
        rw [program_phase_replay P op env erase_type r tag t hP hw]
        exact replay_success env _ _ t hsucc.1
      have hver : verify_phase P op env r tag (t ++ expected_program_calls P op r tag)
          = (Flow.exit 1, t ++ expected_program_calls P op r tag ++ a ++ [c, Call.refresh]) := by
        rw [verify_phase_replay P op env r tag _ hP hw, hsplit,
          replay_failure env _ a c b _ hsucc.2 hfail]
        simp
      have hd : dispatch P op env erase_type r tag t
          = (Flow.exit 1, t ++ expected_program_calls P op r tag ++ a ++ [c, Call.refresh]) := by
        rw [dispatch_phases P op env erase_type r tag t hk, hprog]
        simp only [and_then]
        exact hver
      have hrun := do_work_loop_exit P op env erase_type r rest tag t n 1 _ hd
      exact ⟨hrun, by rw [hrun]; rfl⟩
    · rw [expected_verify_calls_other P op r tag hk] at hsplit
      simp at hsplit
  · intro hs hf hv hmis
    have hd : dispatch P op env erase_type r tag t = (Flow.exit 1, t ++ [Call.refresh]) := by
      by_cases ha : (r.address / P) * P ≠ r.address
      · simp [dispatch, hs, fuse_map_program, hf, fuse_map_verify, hv, ha, just_abort_eq,
          and_then]
      · have hl : (r.data_len / P) * P ≠ r.data_len := by
          rw [div_mul_ne_iff] at ha ⊢
          tauto
        simp [dispatch, hs, fuse_map_program, hf, fuse_map_verify, hv, ha, hl, just_abort_eq,
          and_then]
    have hrun := do_work_loop_exit P op env erase_type r rest tag t n 1 _ hd
    exact ⟨hrun, by rw [hrun]; rfl⟩

/-- C8 at three concrete records, everything requested: a FuseMap record whose
read-verify-range call fails, an Arch record whose verify-feature-bits call fails and
a UserCode record whose verify-user-code call fails; an End record is left unpulled. -/
theorem verify_failure_safe_abort_witness :
    do_work_loop 2 63 (fun _ c => if c.is_verify_range then 0 else 1) 7
        (some ⟨Section.FUSE_MAP, 0, [0, 0, 7, 0]⟩ :: [some ⟨Section.END, 0, []⟩]) false [] 1
      = ⟨Flow.exit 1,
          [Call.set_configuration_flash_address 0 false,
            Call.program_configuration_flash [0, 0] 2, Call.wait_not_busy,
            Call.program_configuration_flash [7, 0] 2, Call.wait_not_busy,
            Call.set_configuration_flash_address 0 false,
            Call.verify_configuration_flash [0, 0, 7, 0] 4, Call.refresh], 2⟩
    ∧ do_work_loop 2 63 (fun _ c => if c = Call.verify_feature_bits [9, 10] then 0 else 1) 7
        (some ⟨Section.ARCH, 0, [1, 2, 3, 4, 5, 6, 7, 8, 9, 10]⟩ :: [some ⟨Section.END, 0, []⟩])
        false [] 1
      = ⟨Flow.exit 1,
          [Call.program_feature_row [1, 2, 3, 4, 5, 6, 7, 8], Call.wait_not_busy,
            Call.program_feature_bits [9, 10], Call.wait_not_busy,
            Call.verify_feature_row [1, 2, 3, 4, 5, 6, 7, 8],
            Call.verify_feature_bits [9, 10], Call.refresh], 2⟩
    ∧ do_work_loop 2 63 (fun _ c => if c = Call.verify_user_code 5 then 0 else 1) 7
        (some ⟨Section.USERCODE, 5, []⟩ :: [some ⟨Section.END, 0, []⟩]) false [] 1
      = ⟨Flow.exit 1,
          [Call.program_user_code 5, Call.wait_not_busy,
            Call.verify_user_code 5, Call.refresh], 2⟩ :=
  ⟨((verify_failure_safe_abort 2 63 (fun _ c => if c.is_verify_range then 0 else 1) 7
      ⟨Section.FUSE_MAP, 0, [0, 0, 7, 0]⟩ [some ⟨Section.END, 0, []⟩] false [] 1).1
      (by decide) (by decide)
      [Call.set_configuration_flash_address 0 false]
      (Call.verify_configuration_flash [0, 0, 7, 0] 4) []
      (by decide) (by decide) (by decide)).1,
    ((verify_failure_safe_abort 2 63
      (fun _ c => if c = Call.verify_feature_bits [9, 10] then 0 else 1) 7
      ⟨Section.ARCH, 0, [1, 2, 3, 4, 5, 6, 7, 8, 9, 10]⟩ [some ⟨Section.END, 0, []⟩]
      false [] 1).1 (by decide) (by decide)
      [Call.verify_feature_row [1, 2, 3, 4, 5, 6, 7, 8]]
      (Call.verify_feature_bits [9, 10]) []
      (by decide) (by decide) (by decide)).1,
    ((verify_failure_safe_abort 2 63 (fun _ c => if c = Call.verify_user_code 5 then 0 else 1) 7
      ⟨Section.USERCODE, 5, []⟩ [some ⟨Section.END, 0, []⟩] false [] 1).1
      (by decide) (by decide)
      [] (Call.verify_user_code 5) []
      (by decide) (by decide) (by decide)).1⟩

/-- C9: every program-phase failure and every structural stream error selects
unsafe-abort.  Take a record that passes the tests of its `case` (a page-aligned
FuseMap record, an Arch record of length 10, a UserCode record) and any call `c` of
its program phase (set-target-page, write-page, program-feature-row,
program-feature-bits, program-user-code, or the busy-wait after one of the last
four): if the calls before `c` succeed and `c` fails, the run issues exactly
erase(erase_type), busy-wait, refresh after `c` and ends with `exit(1)`, without
another pull.  The same three calls and `exit(1)` follow a misaligned FuseMap record
with Program requested, a pull that reports an error, and a record with an unknown
section tag.  `do_work` runs the loop with the `erase_type` it computed at the start
of the session. -/
theorem program_failure_unsafe_abort (P op : Nat) (env : Env) (erase_type : Nat) (r : Record)
    (rest : List (Option Record)) (tag : Bool) (t : Trace) (n : Nat) :
    (0 < P → well_formed P r →
      ∀ (a : List Call) (c : Call) (b : List Call),
        expected_program_calls P op r tag = a ++ c :: b →
        succeeds env t a → env (t ++ a) c ≠ 1 →
        do_work_loop P op env erase_type (some r :: rest) tag t n
            = ⟨Flow.exit 1, t ++ a ++ [c, Call.erase_flash erase_type, Call.wait_not_busy,
                Call.refresh], n + 1⟩
          ∧ exit_status (do_work_loop P op env erase_type (some r :: rest) tag t n) = some 1)
      ∧ (r.sect = Section.FUSE_MAP → op &&& DO_FLASH ≠ 0 →
          (r.address % P ≠ 0 ∨ r.data_len % P ≠ 0) →
          do_work_loop P op env erase_type (some r :: rest) tag t n
            = ⟨Flow.exit 1, t ++ [Call.erase_flash erase_type, Call.wait_not_busy,
                Call.refresh], n + 1⟩)
      ∧ do_work_loop P op env erase_type (none :: rest) tag t n
            = ⟨Flow.exit 1, t ++ [Call.erase_flash erase_type, Call.wait_not_busy,
                Call.refresh], n + 1⟩
      ∧ (∀ k, r.sect = Section.UNKNOWN k →
          do_work_loop P op env erase_type (some r :: rest) tag t n
            = ⟨Flow.exit 1, t ++ [Call.erase_flash erase_type, Call.wait_not_busy,
                Call.refresh], n + 1⟩)
      ∧ (∀ (k : EraseBits) (lead : Record),
          (∃ t0, ∀ s, do_work P k op env (some lead :: s)
              = do_work_loop P op env (compute_erase_type k op) s false t0 1)
            ∨ (∃ t0, ∀ s, do_work P k op env (some lead :: s) = ⟨Flow.exit 1, t0, 1⟩)) := by
  refine ⟨?_, ?_, ?_, ?_, fun k lead => do_work_runs_loop P k op env lead⟩
  · intro hP hw a c b hsplit hsucc hfail
    by_cases hk : r.sect = Section.FUSE_MAP ∨ r.sect = Section.ARCH ∨ r.sect = Section.USERCODE
    · have hprog : program_phase P op env erase_type r tag t
          = (Flow.exit 1, t ++ a ++ [c, Call.erase_flash erase_type, Call.wait_not_busy,
              Call.refresh]) := by
        rw [program_phase_replay P op env erase_type r tag t hP hw, hsplit,
          replay_failure env _ a c b t hsucc hfail]
        simp [unsafe_abort_calls]
      have hd : dispatch P op env erase_type r tag t
          = (Flow.exit 1, t ++ a ++ [c, Call.erase_flash erase_type, Call.wait_not_busy,
              Call.refresh]) := by
        rw [dispatch_phases P op env erase_type r tag t hk, hprog]
        simp only [and_then]
      have hrun := do_work_loop_exit P op env erase_type r rest tag t n 1 _ hd
      exact ⟨hrun, by rw [hrun]; rfl⟩
    · rw [expected_program_calls_other P op r tag hk] at hsplit
      simp at hsplit
  · intro hs hf hmis
    apply do_work_loop_exit
    by_cases ha : (r.address / P) * P ≠ r.address
    · simp [dispatch, hs, fuse_map_program, hf, ha, abort_and_clean_up_eq, and_then,
        unsafe_abort_calls]
    · have hl : (r.data_len / P) * P ≠ r.data_len := by
        rw [div_mul_ne_iff] at ha ⊢
        tauto
      simp [dispatch, hs, fuse_map_program, hf, ha, hl, abort_and_clean_up_eq, and_then,
        unsafe_abort_calls]
  · simp [do_work_loop, abort_and_clean_up_eq, unsafe_abort_calls]
  · intro k hs
    apply do_work_loop_exit
    simp [dispatch, hs, abort_and_clean_up_eq, unsafe_abort_calls]

/-- C9 at three concrete records, everything requested: a FuseMap record whose second
write-page call (the fourth call) fails, an Arch record for which the busy-wait after
program-feature-bits (the fourth call) fails and a UserCode record whose
program-user-code call fails; an End record is left unpulled. -/
theorem program_failure_unsafe_abort_witness :
    do_work_loop 2 63 (fun t _ => if t.length = 3 then 0 else 1) 7
        (some ⟨Section.FUSE_MAP, 0, [0, 0, 7, 0]⟩ :: [some ⟨Section.END, 0, []⟩]) false [] 1
      = ⟨Flow.exit 1,
          [Call.set_configuration_flash_address 0 false,
            Call.program_configuration_flash [0, 0] 2, Call.wait_not_busy,
            Call.program_configuration_flash [7, 0] 2, Call.erase_flash 7,
            Call.wait_not_busy, Call.refresh], 2⟩
    ∧ do_work_loop 2 63 (fun t _ => if t.length = 3 then 0 else 1) 7
        (some ⟨Section.ARCH, 0, [1, 2, 3, 4, 5, 6, 7, 8, 9, 10]⟩ :: [some ⟨Section.END, 0, []⟩])
        false [] 1
      = ⟨Flow.exit 1,
          [Call.program_feature_row [1, 2, 3, 4, 5, 6, 7, 8], Call.wait_not_busy,
            Call.program_feature_bits [9, 10], Call.wait_not_busy, Call.erase_flash 7,
            Call.wait_not_busy, Call.refresh], 2⟩
    ∧ do_work_loop 2 63 (fun _ c => if c = Call.program_user_code 5 then 0 else 1) 7
        (some ⟨Section.USERCODE, 5, []⟩ :: [some ⟨Section.END, 0, []⟩]) false [] 1
      = ⟨Flow.exit 1,
          [Call.program_user_code 5, Call.erase_flash 7, Call.wait_not_busy,
            Call.refresh], 2⟩ :=
  ⟨((program_failure_unsafe_abort 2 63 (fun t _ => if t.length = 3 then 0 else 1) 7
      ⟨Section.FUSE_MAP, 0, [0, 0, 7, 0]⟩ [some ⟨Section.END, 0, []⟩] false [] 1).1
      (by decide) (by decide)
      [Call.set_configuration_flash_address 0 false,
        Call.program_configuration_flash [0, 0] 2, Call.wait_not_busy]
      (Call.program_configuration_flash [7, 0] 2) [Call.wait_not_busy]
      (by decide) (by decide) (by decide)).1,
    ((program_failure_unsafe_abort 2 63 (fun t _ => if t.length = 3 then 0 else 1) 7
      ⟨Section.ARCH, 0, [1, 2, 3, 4, 5, 6, 7, 8, 9, 10]⟩ [some ⟨Section.END, 0, []⟩]
      false [] 1).1 (by decide) (by decide)
      [Call.program_feature_row [1, 2, 3, 4, 5, 6, 7, 8], Call.wait_not_busy,
        Call.program_feature_bits [9, 10]]
      Call.wait_not_busy []
      (by decide) (by decide) (by decide)).1,
    ((program_failure_unsafe_abort 2 63
      (fun _ c => if c = Call.program_user_code 5 then 0 else 1) 7
      ⟨Section.USERCODE, 5, []⟩ [some ⟨Section.END, 0, []⟩] false [] 1).1
      (by decide) (by decide)
      [] (Call.program_user_code 5) [Call.wait_not_busy]
      (by decide) (by decide) (by decide)).1⟩

end ProgMachXO
